import Mathlib

/-
  Verification development for the descry rules engine
  (github.com/chosenoffset/descry).

  Shallow embedding conventions:
  * Go `float64` values are modelled by `Rat` (exact arithmetic); every
    float operation exercised by the claims (add, sub, mul, div, compare)
    is sign- and zero-exact under IEEE-754 as well.
  * Go `int64` is modelled by `Int`; `+`, `-`, `*` wrap modulo 2^64
    (`wrap64`), `/` is Go's truncated division.
  * Go `uint64` fields are modelled by `Nat`; conversions `int64(u)`
    use an explicit `% 2^64` reinterpretation (`uint64ToInt64`).
  * Fallible Go functions returning `error` are modelled with `Except`;
    Go `nil` object results are modelled with `Option`.
  * Mutex bookkeeping, contexts that are never cancelled (the engine
    evaluates rules with a fresh, non-expired context in the code paths
    the claims mention), logging and stdout formatting are not modelled:
    they do not influence any value the claims speak about.
-/

namespace Descry

/-! ## Object model (pkg/descry/evaluator.go) -/

/-- Evaluator value universe: the `Object` interface of evaluator.go with
its seven implementations. -/
inductive Object where
  | integer (value : Int)
  | float (value : Rat)
  | boolean (value : Bool)
  | str (value : String)
  | null
  | error (message : String)
  | ruleTriggered
deriving DecidableEq, Repr

/-- Object.Type() strings from evaluator.go. -/
def Object.typeOf : Object → String
  | .integer _ => "INTEGER"
  | .float _ => "FLOAT"
  | .boolean _ => "BOOLEAN"
  | .str _ => "STRING"
  | .null => "NULL"
  | .error _ => "ERROR"
  | .ruleTriggered => "RULE_TRIGGERED"

/-- newError(format, a...) builds an Error object; callers below inline
the formatted message. -/
def newError (msg : String) : Object := Object.error msg

/-- nativeBoolToPyObject from evaluator.go (returns the TRUE/FALSE
singletons). -/
def nativeBoolToPyObject (input : Bool) : Object := Object.boolean input

/-- isError from evaluator.go, on a possibly-nil (`none`) object. -/
def isErrorOpt : Option Object → Bool
  | some o => o.typeOf = "ERROR"
  | none => false

/-- isError on a non-nil object. -/
def isError (o : Object) : Bool := o.typeOf = "ERROR"

/-- isTruthy from evaluator.go: the NULL singleton is falsy, a Boolean is
its value (the TRUE/FALSE singleton cases and the `*Boolean` type switch
agree), and every other object falls to the `default: return true` arm. -/
def isTruthy : Object → Bool
  | .null => false
  | .boolean b => b
  | _ => true

/-! ## int64 / uint64 arithmetic helpers -/

/-- Reinterpret an integer as a signed 64-bit value (two's complement),
as Go's int64 arithmetic does on overflow. -/
def wrap64 (n : Int) : Int :=
  let m := n % (2 ^ 64 : Int)
  if m < 2 ^ 63 then m else m - 2 ^ 64

/-- Go's `int64(u)` conversion from a uint64 value. -/
def uint64ToInt64 (n : Nat) : Int := wrap64 (n : Int)

/-- Go's int64 division truncates toward zero (`Int.tdiv`). -/
def goDiv (a b : Int) : Int := wrap64 (Int.tdiv a b)

/-! ## Infix evaluation (evaluator.go, evalInfixExpression family) -/

/-- evalIntegerInfixExpression: both operands are Integer objects. The
`.(*Integer).Value` casts are total here because the dispatcher only
calls this when both type tags are INTEGER; non-integer payloads fall
back to 0 (unreachable from the dispatcher). -/
def intValue : Object → Int
  | .integer v => v
  | _ => 0

def floatValue : Object → Rat
  | .float v => v
  | _ => 0

/-- objectToFloat from evaluator.go. -/
def objectToFloat : Object → Rat
  | .integer v => (v : Rat)
  | .float v => v
  | _ => 0

def evalIntegerInfixExpression (operator : String) (left right : Object) : Object :=
  let leftVal := intValue left
  let rightVal := intValue right
  if operator = "+" then Object.integer (wrap64 (leftVal + rightVal))
  else if operator = "-" then Object.integer (wrap64 (leftVal - rightVal))
  else if operator = "*" then Object.integer (wrap64 (leftVal * rightVal))
  else if operator = "/" then
    if rightVal = 0 then newError "division by zero"
    else Object.integer (goDiv leftVal rightVal)
  else if operator = "<" then nativeBoolToPyObject (leftVal < rightVal)
  else if operator = ">" then nativeBoolToPyObject (leftVal > rightVal)
  else if operator = "<=" then nativeBoolToPyObject (leftVal ≤ rightVal)
  else if operator = ">=" then nativeBoolToPyObject (leftVal ≥ rightVal)
  else if operator = "==" then nativeBoolToPyObject (leftVal = rightVal)
  else if operator = "!=" then nativeBoolToPyObject (leftVal ≠ rightVal)
  else if operator = "&&" then nativeBoolToPyObject (leftVal ≠ 0 && rightVal ≠ 0)
  else if operator = "||" then nativeBoolToPyObject (leftVal ≠ 0 || rightVal ≠ 0)
  else newError ("unknown operator: " ++ operator)

/-- evalFloatInfixExpression: at least one operand is a Float. Note the
source switch has NO `&&`/`||` cases: those fall to the default
unknown-operator error. -/
def evalFloatInfixExpression (operator : String) (left right : Object) : Object :=
  let leftVal := objectToFloat left
  let rightVal := objectToFloat right
  if operator = "+" then Object.float (leftVal + rightVal)
  else if operator = "-" then Object.float (leftVal - rightVal)
  else if operator = "*" then Object.float (leftVal * rightVal)
  else if operator = "/" then
    if rightVal = 0 then newError "division by zero"
    else Object.float (leftVal / rightVal)
  else if operator = "<" then nativeBoolToPyObject (leftVal < rightVal)
  else if operator = ">" then nativeBoolToPyObject (leftVal > rightVal)
  else if operator = "<=" then nativeBoolToPyObject (leftVal ≤ rightVal)
  else if operator = ">=" then nativeBoolToPyObject (leftVal ≥ rightVal)
  else if operator = "==" then nativeBoolToPyObject (leftVal = rightVal)
  else if operator = "!=" then nativeBoolToPyObject (leftVal ≠ rightVal)
  else newError ("unknown operator: " ++ operator)

def boolValue : Object → Bool
  | .boolean b => b
  | _ => false

/-- evalBooleanInfixExpression: both operands are Booleans. -/
def evalBooleanInfixExpression (operator : String) (left right : Object) : Object :=
  let leftVal := boolValue left
  let rightVal := boolValue right
  if operator = "&&" then nativeBoolToPyObject (leftVal && rightVal)
  else if operator = "||" then nativeBoolToPyObject (leftVal || rightVal)
  else if operator = "==" then nativeBoolToPyObject (leftVal = rightVal)
  else if operator = "!=" then nativeBoolToPyObject (leftVal ≠ rightVal)
  else newError ("unknown operator: " ++ operator)

/-- Go interface identity (`left == right`) for the operand pairs that can
reach the final `==`/`!=` arms: both-Integer, any-Float and both-Boolean
pairs are dispatched earlier, and the evaluator allocates every Integer,
Float and String object freshly while NULL is a shared singleton, so on
the remaining reachable pairs pointer identity holds exactly for two
NULLs. -/
def goIdentityEq : Object → Object → Bool
  | .null, .null => true
  | _, _ => false

/-- evalInfixExpression from evaluator.go: dispatch on the operand type
tags. -/
def evalInfixExpression (operator : String) (left right : Object) : Object :=
  if left.typeOf = "INTEGER" ∧ right.typeOf = "INTEGER" then
    evalIntegerInfixExpression operator left right
  else if left.typeOf = "FLOAT" ∨ right.typeOf = "FLOAT" then
    evalFloatInfixExpression operator left right
  else if left.typeOf = "BOOLEAN" ∧ right.typeOf = "BOOLEAN" then
    evalBooleanInfixExpression operator left right
  else if operator = "==" then nativeBoolToPyObject (goIdentityEq left right)
  else if operator = "!=" then nativeBoolToPyObject (! goIdentityEq left right)
  else newError ("unknown operator: " ++ operator)

/-! ## AST (pkg/descry/parser/ast.go)

Expressions never contain statements, so the two Go interfaces become two
inductives. `NilExpr` stands for a nil `Expression` interface value (the
parser stores nil sub-expressions after some parse errors, and ast.go
guards children with `!= nil` checks). A `WhenStatement`'s body is its
`*BlockStatement`'s statement list (the parser never produces a nil
body on a successfully parsed statement); the block node itself is
counted inside the `WhenStmt` case below, exactly as
`WhenStatement.CountNodes` calls `ws.Body.CountNodes()` directly. -/

inductive Expr where
  | Identifier (value : String)
  | IntegerLit (value : Int)
  | FloatLit (value : Rat)
  | StringLit (value : String)
  | UnitExpr (value : Expr) (unit : String)
  | InfixExpr (operator : String) (left : Expr) (right : Expr)
  | PrefixExpr (operator : String) (right : Expr)
  | CallExpr (function : Expr) (arguments : List Expr)
  | DotExpr (left : Expr) (right : Expr)
  | NilExpr

inductive Stmt where
  | WhenStmt (condition : Expr) (body : List Stmt)
  | BlockStmt (statements : List Stmt)
  | ExprStmt (expression : Expr)

/-! ### Node counting (ast.go CountNodes methods)

Only Program, WhenStatement, BlockStatement, Identifier, IntegerLiteral,
FloatLiteral, StringLiteral, UnitExpression, InfixExpression and
CallExpression implement the `NodeCounter` interface in ast.go.
ExpressionStatement, PrefixExpression and DotExpression do NOT, so a
parent's `child.(NodeCounter)` type assertion fails on them and the
`count += 1` fallback fires; a nil child guarded by `!= nil` adds 0. -/

mutual

/-- The guarded child dispatch `if child != nil { if c, ok :=
child.(NodeCounter); ok { count += c.CountNodes() } else { count += 1 } }`
used for UnitExpression.Value, InfixExpression.Left/Right,
CallExpression.Function and WhenStatement.Condition, composed with the
CountNodes bodies of the implementing types (UnitExpression,
InfixExpression, CallExpression count 1 plus their dispatched children;
Identifier and the three literal types return 1). PrefixExpression and
DotExpression do not implement NodeCounter, so the assertion fails and
the fallback adds 1 regardless of their subtrees; a nil child adds 0. -/
def countExprChild : Expr → Nat
  | .NilExpr => 0
  | .PrefixExpr _ _ => 1
  | .DotExpr _ _ => 1
  | .UnitExpr v _ => 1 + countExprChild v
  | .InfixExpr _ l r => 1 + countExprChild l + countExprChild r
  | .CallExpr f args => 1 + countExprChild f + countExprArgs args
  | _ => 1

/-- The CallExpression.Arguments loop: no nil guard, so a nil argument
hits the failed-assertion fallback and adds 1; other arguments dispatch
exactly like guarded children. -/
def countExprArgs : List Expr → Nat
  | [] => 0
  | .NilExpr :: es => 1 + countExprArgs es
  | e :: es => countExprChild e + countExprArgs es

end

mutual

/-- CountNodes() on WhenStatement and BlockStatement (the statement types
implementing NodeCounter). ExpressionStatement has no CountNodes method;
the 1 here is never consulted (parents go through `countStmtList`).
`WhenStatement.CountNodes` calls `ws.Body.CountNodes()` directly, giving
the inner `1 + countStmtList body` block term. -/
def countNodesStmt : Stmt → Nat
  | .WhenStmt cond body => 1 + countExprChild cond + (1 + countStmtList body)
  | .BlockStmt stmts => 1 + countStmtList stmts
  | .ExprStmt _ => 1

/-- The statement loop shared by Program.CountNodes and
BlockStatement.CountNodes: ExpressionStatement fails the NodeCounter
assertion and adds 1 regardless of its expression subtree. -/
def countStmtList : List Stmt → Nat
  | [] => 0
  | .ExprStmt _ :: ss => 1 + countStmtList ss
  | s :: ss => countNodesStmt s + countStmtList ss

end

/-- Program.CountNodes from ast.go: 1 for the program node plus the
fallback-dispatched statement counts. -/
def countNodesProgram (statements : List Stmt) : Nat := 1 + countStmtList statements

/-! ### Spec-side inclusive subtree size

Modelled from the spec: "Every AST node implements `countNodes`
returning the inclusive subtree size. `Program.countNodes = 1 + Σ
stmt.countNodes`. Leaves return 1." — the second definition of a
refinement claim, to be compared with the code's count above. A nil
child is no node and contributes 0. -/

mutual

def specSubtreeSizeExpr : Expr → Nat
  | .UnitExpr v _ => 1 + specSubtreeSizeExpr v
  | .InfixExpr _ l r => 1 + specSubtreeSizeExpr l + specSubtreeSizeExpr r
  | .PrefixExpr _ r => 1 + specSubtreeSizeExpr r
  | .CallExpr f args => 1 + specSubtreeSizeExpr f + specSubtreeSizeArgs args
  | .DotExpr l r => 1 + specSubtreeSizeExpr l + specSubtreeSizeExpr r
  | .NilExpr => 0
  | _ => 1

def specSubtreeSizeArgs : List Expr → Nat
  | [] => 0
  | e :: es => specSubtreeSizeExpr e + specSubtreeSizeArgs es

end

mutual

def specSubtreeSizeStmt : Stmt → Nat
  | .WhenStmt cond body => 1 + specSubtreeSizeExpr cond + (1 + specSubtreeSizeStmts body)
  | .BlockStmt stmts => 1 + specSubtreeSizeStmts stmts
  | .ExprStmt e => 1 + specSubtreeSizeExpr e

def specSubtreeSizeStmts : List Stmt → Nat
  | [] => 0
  | s :: ss => specSubtreeSizeStmt s + specSubtreeSizeStmts ss

end

def specSubtreeSizeProgram (statements : List Stmt) : Nat :=
  1 + specSubtreeSizeStmts statements

/-! ### Nil-freeness (parse-error-free ASTs contain no nil children) -/

mutual

def exprNilFree : Expr → Bool
  | .UnitExpr v _ => exprNilFree v
  | .InfixExpr _ l r => exprNilFree l && exprNilFree r
  | .PrefixExpr _ r => exprNilFree r
  | .CallExpr f args => exprNilFree f && argsNilFree args
  | .DotExpr l r => exprNilFree l && exprNilFree r
  | .NilExpr => false
  | _ => true

def argsNilFree : List Expr → Bool
  | [] => true
  | e :: es => exprNilFree e && argsNilFree es

end

mutual

def stmtNilFree : Stmt → Bool
  | .WhenStmt cond body => exprNilFree cond && stmtsNilFree body
  | .BlockStmt stmts => stmtsNilFree stmts
  | .ExprStmt e => exprNilFree e

def stmtsNilFree : List Stmt → Bool
  | [] => true
  | s :: ss => stmtNilFree s && stmtsNilFree ss

end

/-! ## Lexer (pkg/descry/parser/lexer.go)

The Go lexer walks a byte string with `position`/`readPosition` indices;
the input here is a `List Char` (the DSL sources in the claims are
ASCII). `Token.Position/Line/Column` are dropped: they never influence a
parse decision or an error string. Out-of-range reads yield the NUL
character exactly as `readChar`/`peekChar` do. The lexer's internal
`for` loops are given explicit fuel of `input.length + 1`, an upper
bound on their iteration count (each iteration advances `readPosition`,
and every loop stops at the NUL it reads past the end). -/

inductive TokenType where
  | ILLEGAL | EOF
  | IDENT | INT | FLOAT | STRING
  | WHEN | IF
  | ASSIGN | EQ | NOT_EQ | LT | GT | LTE | GTE | AND | OR | NOT
  | COMMA | SEMICOLON | DOT
  | LPAREN | RPAREN | LBRACE | RBRACE
  | MB | GB | MS | S | M
deriving DecidableEq, Repr

structure Token where
  type : TokenType
  literal : String
deriving DecidableEq, Repr

/-- TokenType.String() from lexer.go (used in parser error messages). -/
def tokenTypeString : TokenType → String
  | .ILLEGAL => "ILLEGAL"
  | .EOF => "EOF"
  | .IDENT => "IDENT"
  | .INT => "INT"
  | .FLOAT => "FLOAT"
  | .STRING => "STRING"
  | .WHEN => "WHEN"
  | .IF => "IF"
  | .ASSIGN => "="
  | .EQ => "=="
  | .NOT_EQ => "!="
  | .LT => "<"
  | .GT => ">"
  | .LTE => "<="
  | .GTE => ">="
  | .AND => "&&"
  | .OR => "||"
  | .NOT => "!"
  | .COMMA => ","
  | .SEMICOLON => ";"
  | .DOT => "."
  | .LPAREN => "("
  | .RPAREN => ")"
  | .LBRACE => "\x7b"
  | .RBRACE => "\x7d"
  | .MB => "MB"
  | .GB => "GB"
  | .MS => "ms"
  | .S => "s"
  | .M => "m"

/-- The `keywords` map plus the IDENT default of lookupIdent. -/
def lookupIdent (ident : String) : TokenType :=
  if ident = "when" then .WHEN
  else if ident = "if" then .IF
  else if ident = "MB" then .MB
  else if ident = "GB" then .GB
  else if ident = "ms" then .MS
  else if ident = "s" then .S
  else if ident = "m" then .M
  else .IDENT

def isLetter (ch : Char) : Bool :=
  (Char.ofNat 97 ≤ ch && ch ≤ Char.ofNat 122) ||
  (Char.ofNat 65 ≤ ch && ch ≤ Char.ofNat 90) || ch = '_'

def isDigit (ch : Char) : Bool :=
  Char.ofNat 48 ≤ ch && ch ≤ Char.ofNat 57

structure Lexer where
  input : List Char
  position : Nat
  readPosition : Nat
  ch : Char

def readChar (l : Lexer) : Lexer :=
  { input := l.input
    ch := if l.readPosition ≥ l.input.length then '\x00'
          else l.input.getD l.readPosition '\x00'
    position := l.readPosition
    readPosition := l.readPosition + 1 }

def peekChar (l : Lexer) : Char :=
  if l.readPosition ≥ l.input.length then '\x00'
  else l.input.getD l.readPosition '\x00'

def newLexer (input : String) : Lexer :=
  readChar { input := input.toList, position := 0, readPosition := 0, ch := '\x00' }

/-- Go slice `l.input[start:stop]` as a string. -/
def inputSlice (input : List Char) (start stop : Nat) : String :=
  String.mk ((input.drop start).take (stop - start))

def isWhitespaceCh (c : Char) : Bool :=
  c = ' ' || c = '\t' || c = '\n' || c = '\r'

def skipWhitespaceFuel : Nat → Lexer → Lexer
  | 0, l => l
  | fuel + 1, l =>
    if isWhitespaceCh l.ch then skipWhitespaceFuel fuel (readChar l) else l

def readIdentLoop : Nat → Lexer → Lexer
  | 0, l => l
  | fuel + 1, l =>
    if isLetter l.ch || isDigit l.ch || l.ch = '_' then
      readIdentLoop fuel (readChar l)
    else l

/-- readIdentifier: record the start offset, scan, slice. -/
def readIdentifier (l : Lexer) : String × Lexer :=
  let start := l.position
  let lEnd := readIdentLoop (l.input.length + 1) l
  (inputSlice lEnd.input start lEnd.position, lEnd)

def readDigitsLoop : Nat → Lexer → Lexer
  | 0, l => l
  | fuel + 1, l =>
    if isDigit l.ch then readDigitsLoop fuel (readChar l) else l

/-- readNumber: greedy digits, optionally `.` followed by more digits. -/
def readNumber (l : Lexer) : TokenType × String × Lexer :=
  let start := l.position
  let l1 := readDigitsLoop (l.input.length + 1) l
  if l1.ch = '.' && isDigit (peekChar l1) then
    let l2 := readDigitsLoop (l1.input.length + 1) (readChar l1)
    (.FLOAT, inputSlice l2.input start l2.position, l2)
  else
    (.INT, inputSlice l1.input start l1.position, l1)

def readStringLoop : Nat → Lexer → Lexer
  | 0, l => l
  | fuel + 1, l =>
    let l1 := readChar l
    if l1.ch = '\"' || l1.ch = '\x00' then l1 else readStringLoop fuel l1

/-- readString: the lexeme excludes the delimiters. -/
def readStringLit (l : Lexer) : String × Lexer :=
  let start := l.position + 1
  let l1 := readStringLoop (l.input.length + 1) l
  (inputSlice l1.input start l1.position, l1)

/-- NextToken from lexer.go. Single-token result plus the advanced lexer;
identifier and number tokens return without the trailing readChar, all
other arms perform it. -/
def nextToken (l0 : Lexer) : Token × Lexer :=
  let l := skipWhitespaceFuel (l0.input.length + 1) l0
  if l.ch = '=' then
    if peekChar l = '=' then
      let ch := l.ch
      let l1 := readChar l
      (⟨.EQ, String.mk [ch, l1.ch]⟩, readChar l1)
    else (⟨.ASSIGN, String.mk [l.ch]⟩, readChar l)
  else if l.ch = '!' then
    if peekChar l = '=' then
      let ch := l.ch
      let l1 := readChar l
      (⟨.NOT_EQ, String.mk [ch, l1.ch]⟩, readChar l1)
    else (⟨.NOT, String.mk [l.ch]⟩, readChar l)
  else if l.ch = '<' then
    if peekChar l = '=' then
      let ch := l.ch
      let l1 := readChar l
      (⟨.LTE, String.mk [ch, l1.ch]⟩, readChar l1)
    else (⟨.LT, String.mk [l.ch]⟩, readChar l)
  else if l.ch = '>' then
    if peekChar l = '=' then
      let ch := l.ch
      let l1 := readChar l
      (⟨.GTE, String.mk [ch, l1.ch]⟩, readChar l1)
    else (⟨.GT, String.mk [l.ch]⟩, readChar l)
  else if l.ch = '&' then
    if peekChar l = '&' then
      let ch := l.ch
      let l1 := readChar l
      (⟨.AND, String.mk [ch, l1.ch]⟩, readChar l1)
    else (⟨.ILLEGAL, String.mk [l.ch]⟩, readChar l)
  else if l.ch = '|' then
    if peekChar l = '|' then
      let ch := l.ch
      let l1 := readChar l
      (⟨.OR, String.mk [ch, l1.ch]⟩, readChar l1)
    else (⟨.ILLEGAL, String.mk [l.ch]⟩, readChar l)
  else if l.ch = ',' then (⟨.COMMA, String.mk [l.ch]⟩, readChar l)
  else if l.ch = ';' then (⟨.SEMICOLON, String.mk [l.ch]⟩, readChar l)
  else if l.ch = '.' then (⟨.DOT, String.mk [l.ch]⟩, readChar l)
  else if l.ch = '(' then (⟨.LPAREN, String.mk [l.ch]⟩, readChar l)
  else if l.ch = ')' then (⟨.RPAREN, String.mk [l.ch]⟩, readChar l)
  else if l.ch = '\x7b' then (⟨.LBRACE, String.mk [l.ch]⟩, readChar l)
  else if l.ch = '\x7d' then (⟨.RBRACE, String.mk [l.ch]⟩, readChar l)
  else if l.ch = '\"' then
    let (lit, l1) := readStringLit l
    (⟨.STRING, lit⟩, readChar l1)
  else if l.ch = '\x00' then (⟨.EOF, ""⟩, readChar l)
  else if isLetter l.ch then
    let (lit, l1) := readIdentifier l
    (⟨lookupIdent lit, lit⟩, l1)
  else if isDigit l.ch then
    let (tt, lit, l1) := readNumber l
    (⟨tt, lit⟩, l1)
  else (⟨.ILLEGAL, String.mk [l.ch]⟩, readChar l)

/-! ## Parser (pkg/descry/parser/parser.go)

State-passing translation of the Pratt parser. Every parse function
threads the `Parser` record; the `Nat` fuel argument strictly decreases
on each nested call and is chosen large enough at the top level
(`parseProgram`) that it can never run out on the inputs of the
theorems below (each fueled call consumes at least one input token or
returns). Where Go returns a nil `Expression` inside an otherwise-built
node, the embedding stores `Expr.NilExpr`. Go's `ParseProgram` appends
the result of `parseStatement` unconditionally (a nil `*WhenStatement`
becomes a non-nil interface value); that placeholder can only arise
together with a recorded error, and `AddRule` rejects any program with
errors before counting or evaluating it, so the embedding simply skips
it. -/

def decDigitsVal : List Char → Nat → Option Nat
  | [], acc => some acc
  | c :: cs, acc =>
    if isDigit c then decDigitsVal cs (acc * 10 + (c.toNat - 48)) else none

def octDigitsVal : List Char → Nat → Option Nat
  | [], acc => some acc
  | c :: cs, acc =>
    if Char.ofNat 48 ≤ c && c ≤ Char.ofNat 55 then
      octDigitsVal cs (acc * 8 + (c.toNat - 48))
    else none

/-- strconv.ParseInt(s, 0, 64) restricted to the lexer's INT lexemes
(nonempty ASCII digit runs): base 0 reads a leading '0' as octal, so a
later digit 8 or 9 is then a syntax error; values above 2^63 − 1 are
range errors; both error cases surface as `none`. -/
def goParseIntBase0 (s : String) : Option Int :=
  match s.toList with
  | [] => none
  | ['0'] => some 0
  | '0' :: rest =>
    match octDigitsVal rest 0 with
    | none => none
    | some v => if v ≤ 2 ^ 63 - 1 then some (v : Int) else none
  | cs =>
    match decDigitsVal cs 0 with
    | none => none
    | some v => if v ≤ 2 ^ 63 - 1 then some (v : Int) else none

/-- strconv.ParseFloat(s, 64) on the lexer's FLOAT lexemes
(digits '.' digits): the exact decimal value (Go rounds to the nearest
binary float; no claim exercises a literal where the rounding is
visible). -/
def goParseFloat (s : String) : Option Rat :=
  match s.toList.splitOn '.' with
  | [ip] => (decDigitsVal ip 0).map (fun n => (n : Rat))
  | [ip, fp] =>
    match decDigitsVal ip 0, decDigitsVal fp 0 with
    | some i, some f => some ((i : Rat) + (f : Rat) / ((10 : Rat) ^ fp.length))
    | _, _ => none
  | _ => none

/-- Operator precedence levels from parser.go (`unaryPrec` is Go's
PREFIX level, `dotPrec` is DOTPREC). -/
def lowestPrec : Nat := 1
def logicalPrec : Nat := 2
def equalsPrec : Nat := 3
def lessGreaterPrec : Nat := 4
def sumPrec : Nat := 5
def productPrec : Nat := 6
def unaryPrec : Nat := 7
def callPrec : Nat := 8
def dotPrec : Nat := 9

/-- The `precedences` map with the LOWEST default of
peekPrecedence/curPrecedence. -/
def tokenPrecedence : TokenType → Nat
  | .EQ => equalsPrec
  | .NOT_EQ => equalsPrec
  | .LT => lessGreaterPrec
  | .GT => lessGreaterPrec
  | .LTE => lessGreaterPrec
  | .GTE => lessGreaterPrec
  | .AND => logicalPrec
  | .OR => logicalPrec
  | .LPAREN => callPrec
  | .DOT => dotPrec
  | _ => lowestPrec

/-- Which token types have a registered infixParseFn. -/
def hasInfixFn : TokenType → Bool
  | .EQ | .NOT_EQ | .LT | .GT | .LTE | .GTE | .AND | .OR | .LPAREN | .DOT => true
  | _ => false

structure Parser where
  l : Lexer
  curToken : Token
  peekToken : Token
  errors : List String

def pNextToken (p : Parser) : Parser :=
  let (tok, l1) := nextToken p.l
  { p with l := l1, curToken := p.peekToken, peekToken := tok }

/-- New(lexer): zero-valued cur/peek tokens (TokenType zero value is
ILLEGAL), then two nextToken calls. -/
def newParser (input : String) : Parser :=
  pNextToken (pNextToken
    { l := newLexer input
      curToken := ⟨.ILLEGAL, ""⟩
      peekToken := ⟨.ILLEGAL, ""⟩
      errors := [] })

def peekError (p : Parser) (t : TokenType) : Parser :=
  { p with errors := p.errors ++
      ["expected next token to be " ++ tokenTypeString t ++ ", got " ++
       tokenTypeString p.peekToken.type ++ " instead"] }

def noPrefixParseFnError (p : Parser) : Parser :=
  { p with errors := p.errors ++
      ["no prefix parse function for " ++ tokenTypeString p.curToken.type ++
       " found"] }

def expectPeek (p : Parser) (t : TokenType) : Bool × Parser :=
  if p.peekToken.type = t then (true, pNextToken p)
  else (false, peekError p t)

def isUnitTokenType : TokenType → Bool
  | .MB | .GB | .MS | .S | .M => true
  | _ => false

/-- parseIdentifier. -/
def parseIdentifier (p : Parser) : Expr := .Identifier p.curToken.literal

/-- parseIntegerLiteral, including the postfix unit attachment. -/
def parseIntegerLiteral (p : Parser) : Option Expr × Parser :=
  match goParseIntBase0 p.curToken.literal with
  | none =>
    (none, { p with errors := p.errors ++
        ["could not parse \"" ++ p.curToken.literal ++ "\" as integer"] })
  | some v =>
    if isUnitTokenType p.peekToken.type then
      let p1 := pNextToken p
      (some (.UnitExpr (.IntegerLit v) p1.curToken.literal), p1)
    else (some (.IntegerLit v), p)

/-- parseFloatLiteral, including the postfix unit attachment. -/
def parseFloatLiteral (p : Parser) : Option Expr × Parser :=
  match goParseFloat p.curToken.literal with
  | none =>
    (none, { p with errors := p.errors ++
        ["could not parse \"" ++ p.curToken.literal ++ "\" as float"] })
  | some v =>
    if isUnitTokenType p.peekToken.type then
      let p1 := pNextToken p
      (some (.UnitExpr (.FloatLit v) p1.curToken.literal), p1)
    else (some (.FloatLit v), p)

def parseStringLiteral (p : Parser) : Expr := .StringLit p.curToken.literal

mutual

/-- parseStatement: WHEN statements versus expression statements. -/
def parseStatement : Nat → Parser → Option Stmt × Parser
  | 0, p => (none, p)
  | f + 1, p =>
    if p.curToken.type = .WHEN then parseWhenStatement f p
    else parseExpressionStatement f p

/-- parseWhenStatement: `when` must be followed by an IDENT (the first
token of the condition), then the condition expression, `{`, and the
block body. -/
def parseWhenStatement : Nat → Parser → Option Stmt × Parser
  | 0, p => (none, p)
  | f + 1, p =>
    match expectPeek p .IDENT with
    | (false, p1) => (none, p1)
    | (true, p1) =>
      let (cond, p2) := parseExpression f lowestPrec p1
      match expectPeek p2 .LBRACE with
      | (false, p3) => (none, p3)
      | (true, p3) =>
        let (body, p4) := parseBlockStatement f p3
        (some (.WhenStmt (cond.getD .NilExpr) body), p4)

/-- parseBlockStatement: consume `{`, then statements until `}` or EOF. -/
def parseBlockStatement : Nat → Parser → List Stmt × Parser
  | 0, p => ([], p)
  | f + 1, p => parseBlockLoop f (pNextToken p)

def parseBlockLoop : Nat → Parser → List Stmt × Parser
  | 0, p => ([], p)
  | f + 1, p =>
    if p.curToken.type ≠ .RBRACE ∧ p.curToken.type ≠ .EOF then
      let (stmt, p1) := parseStatement f p
      let (rest, p2) := parseBlockLoop f (pNextToken p1)
      ((match stmt with | some s => [s] | none => []) ++ rest, p2)
    else ([], p)

/-- parseExpressionStatement (optionally eats a trailing semicolon). -/
def parseExpressionStatement : Nat → Parser → Option Stmt × Parser
  | 0, p => (none, p)
  | f + 1, p =>
    let (e, p1) := parseExpression f lowestPrec p
    let p2 := if p1.peekToken.type = .SEMICOLON then pNextToken p1 else p1
    (some (.ExprStmt (e.getD .NilExpr)), p2)

/-- parseExpression: prefix dispatch then the Pratt loop. A missing
prefix fn records the error and returns nil immediately; a prefix fn
that itself returned nil still enters the loop with a nil left side,
exactly as the source does. -/
def parseExpression : Nat → Nat → Parser → Option Expr × Parser
  | 0, _, p => (none, p)
  | f + 1, precedence, p =>
    match parsePrefixFn f p with
    | (none, p1) => (none, p1)
    | (some leftExp, p1) => parseExpressionLoop f precedence leftExp p1

/-- The prefixParseFns registration table: outer `none` means no
function is registered for the token type (noPrefixParseFnError fires);
`some e?` is the function's possibly-nil result. -/
def parsePrefixFn : Nat → Parser → Option (Option Expr) × Parser
  | 0, p => (some none, p)
  | f + 1, p =>
    match p.curToken.type with
    | .IDENT => (some (some (parseIdentifier p)), p)
    | .INT =>
      let (e, p1) := parseIntegerLiteral p
      (some e, p1)
    | .FLOAT =>
      let (e, p1) := parseFloatLiteral p
      (some e, p1)
    | .STRING => (some (some (parseStringLiteral p)), p)
    | .NOT =>
      let (e, p1) := parsePrefixExpression f p
      (some (some e), p1)
    | .LPAREN =>
      let (e, p1) := parseGroupedExpression f p
      (some e, p1)
    | _ => (none, noPrefixParseFnError p)

/-- The `for` loop of parseExpression. -/
def parseExpressionLoop : Nat → Nat → Option Expr → Parser → Option Expr × Parser
  | 0, _, left, p => (left, p)
  | f + 1, precedence, left, p =>
    if p.peekToken.type ≠ .SEMICOLON ∧
       precedence < tokenPrecedence p.peekToken.type then
      if hasInfixFn p.peekToken.type then
        let p1 := pNextToken p
        let (newLeft, p2) :=
          match p1.curToken.type with
          | .LPAREN => parseCallExpression f left p1
          | .DOT => parseDotExpression f left p1
          | _ => parseInfixExpression f left p1
        parseExpressionLoop f precedence newLeft p2
      else (left, p)
    else (left, p)

/-- parsePrefixExpression (registered for `!`). -/
def parsePrefixExpression : Nat → Parser → Expr × Parser
  | 0, p => (.NilExpr, p)
  | f + 1, p =>
    let operator := p.curToken.literal
    let p1 := pNextToken p
    let (right, p2) := parseExpression f unaryPrec p1
    (.PrefixExpr operator (right.getD .NilExpr), p2)

/-- parseInfixExpression (all binary operators with a precedence). -/
def parseInfixExpression : Nat → Option Expr → Parser → Option Expr × Parser
  | 0, left, p => (left, p)
  | f + 1, left, p =>
    let operator := p.curToken.literal
    let precedence := tokenPrecedence p.curToken.type
    let p1 := pNextToken p
    let (right, p2) := parseExpression f precedence p1
    (some (.InfixExpr operator (left.getD .NilExpr) (right.getD .NilExpr)), p2)

/-- parseGroupedExpression. -/
def parseGroupedExpression : Nat → Parser → Option Expr × Parser
  | 0, p => (none, p)
  | f + 1, p =>
    let p1 := pNextToken p
    let (exp, p2) := parseExpression f lowestPrec p1
    match expectPeek p2 .RPAREN with
    | (false, p3) => (none, p3)
    | (true, p3) => (exp, p3)

/-- parseCallExpression (infix fn for `(` after a callee). -/
def parseCallExpression : Nat → Option Expr → Parser → Option Expr × Parser
  | 0, left, p => (left, p)
  | f + 1, left, p =>
    let (args, p1) := parseExpressionList f .RPAREN p
    (some (.CallExpr (left.getD .NilExpr) args), p1)

/-- parseDotExpression (infix fn for `.`). -/
def parseDotExpression : Nat → Option Expr → Parser → Option Expr × Parser
  | 0, left, p => (left, p)
  | f + 1, left, p =>
    let p1 := pNextToken p
    let (right, p2) := parseExpression f dotPrec p1
    (some (.DotExpr (left.getD .NilExpr) (right.getD .NilExpr)), p2)

/-- parseExpressionList: the comma-separated argument list up to `end`;
a failed closing-token check returns Go's nil slice, modelled as []. -/
def parseExpressionList : Nat → TokenType → Parser → List Expr × Parser
  | 0, _, p => ([], p)
  | f + 1, endTT, p =>
    if p.peekToken.type = endTT then ([], pNextToken p)
    else
      let p1 := pNextToken p
      let (e, p2) := parseExpression f lowestPrec p1
      let (rest, p3) := parseExprListLoop f p2
      match expectPeek p3 endTT with
      | (false, p4) => ([], p4)
      | (true, p4) => ((e.getD .NilExpr) :: rest, p4)

/-- The `for p.peekTokenIs(COMMA)` loop of parseExpressionList. -/
def parseExprListLoop : Nat → Parser → List Expr × Parser
  | 0, p => ([], p)
  | f + 1, p =>
    if p.peekToken.type = .COMMA then
      let p1 := pNextToken (pNextToken p)
      let (e, p2) := parseExpression f lowestPrec p1
      let (rest, p3) := parseExprListLoop f p2
      ((e.getD .NilExpr) :: rest, p3)
    else ([], p)

/-- The `for !p.curTokenIs(EOF)` loop of ParseProgram. -/
def parseProgramLoop : Nat → Parser → List Stmt × Parser
  | 0, p => ([], p)
  | f + 1, p =>
    if p.curToken.type ≠ .EOF then
      let (stmt, p1) := parseStatement f p
      let (rest, p2) := parseProgramLoop f (pNextToken p1)
      ((match stmt with | some s => [s] | none => []) ++ rest, p2)
    else ([], p)

end

/-- Lex and parse a whole source text: the program's statements plus the
collected parse errors, with fuel amply above the maximal nesting for
the source length. -/
def parseProgram (source : String) : List Stmt × List String :=
  let p := newParser source
  let (stmts, pEnd) := parseProgramLoop (source.length * 4 + 64) p
  (stmts, pEnd.errors)

/-! ## Engine rule admission and custom metrics (pkg/descry/engine.go) -/

/-- ResourceLimits from engine.go. Go `int` fields are `Int` (they are
set programmatically and compared against list lengths), `MaxMemoryUsage`
is a uint64 byte count, the two durations are nanoseconds. -/
structure ResourceLimits where
  maxRules : Int
  maxRuleComplexity : Int
  maxMemoryUsage : Nat
  maxCPUTime : Int
  maxEvaluationTime : Int
  maxMetricHistorySize : Int
  maxCustomMetrics : Int

/-- DefaultResourceLimits from engine.go. -/
def defaultResourceLimits : ResourceLimits :=
  { maxRules := 100
    maxRuleComplexity := 1000
    maxMemoryUsage := 100 * 1024 * 1024
    maxCPUTime := 100 * 1000000
    maxEvaluationTime := 1000000000
    maxMetricHistorySize := 10000
    maxCustomMetrics := 1000 }

/-- Rule from engine.go. `LastTrigger` (a timestamp written only by the
evaluation loop) is omitted: no claim reads it. -/
structure Rule where
  name : String
  source : String
  ast : List Stmt

/-- The engine state touched by the claims: the loaded rule list, the
resource limits, and the custom-metric table (`map[string]float64`,
modelled as an association list whose keys stay distinct because
`mapSet` updates in place). -/
structure EngineState where
  rules : List Rule
  limits : ResourceLimits
  customMetrics : List (String × Rat)

/-- NewEngine's state relevant to the claims: no rules, default limits,
empty custom metric table. -/
def newEngineState : EngineState :=
  { rules := [], limits := defaultResourceLimits, customMetrics := [] }

/-- AddRule from engine.go: rule-count limit, then parse, then
complexity, then append; any failure returns an error and performs no
mutation. -/
def addRule (e : EngineState) (name source : String) : Except String EngineState :=
  if (e.rules.length : Int) ≥ e.limits.maxRules then
    .error ("maximum number of rules exceeded (" ++ toString e.limits.maxRules ++ ")")
  else if (parseProgram source).2 ≠ [] then
    .error ("parse errors: [" ++ String.intercalate " " (parseProgram source).2 ++ "]")
  else if (countNodesProgram (parseProgram source).1 : Int) > e.limits.maxRuleComplexity then
    .error ("rule complexity (" ++ toString (countNodesProgram (parseProgram source).1) ++
            " nodes) exceeds limit (" ++ toString e.limits.maxRuleComplexity ++ ")")
  else
    .ok { e with rules := e.rules ++
            [{ name := name, source := source, ast := (parseProgram source).1 }] }

/-- Repeated AddRule with one (name, source) pair, stopping at the first
error. -/
def addRuleIter (name source : String) : Nat → EngineState → Except String EngineState
  | 0, e => .ok e
  | n + 1, e =>
    match addRule e name source with
    | .ok e1 => addRuleIter name source n e1
    | .error m => .error m

/-- Go `_, exists := e.customMetrics[name]`. -/
def mapContains (m : List (String × Rat)) (name : String) : Bool :=
  m.any (fun kv => kv.1 = name)

/-- Go `e.customMetrics[name] = value`: in-place update of an existing
key, otherwise insertion of the new key. -/
def mapSet : List (String × Rat) → String → Rat → List (String × Rat)
  | [], name, v => [(name, v)]
  | kv :: rest, name, v =>
    if kv.1 = name then (name, v) :: rest else kv :: mapSet rest name v

/-- UpdateCustomMetric from engine.go: reject only a NEW name when the
table is already at (or beyond) MaxCustomMetrics; always write
otherwise. -/
def updateCustomMetric (e : EngineState) (name : String) (value : Rat) :
    Except String EngineState :=
  if (e.customMetrics.length : Int) ≥ e.limits.maxCustomMetrics ∧
     ¬ mapContains e.customMetrics name then
    .error ("maximum number of custom metrics exceeded (" ++
            toString e.limits.maxCustomMetrics ++ ")")
  else
    .ok { e with customMetrics := mapSet e.customMetrics name value }

/-- A caller-side sequence of UpdateCustomMetric calls: an error leaves
the engine unchanged (the Go method mutates nothing on the error path)
and the caller moves on. -/
def applyCustomUpdates (e : EngineState) : List (String × Rat) → EngineState
  | [] => e
  | (n, v) :: rest =>
    match updateCustomMetric e n v with
    | .ok e1 => applyCustomUpdates e1 rest
    | .error _ => applyCustomUpdates e rest

/-! ## Runtime metrics and history (pkg/descry/metrics/runtime.go) -/

/-- RuntimeMetrics restricted to the fields the embedded code reads
(the remaining Go fields — stack/span/cache/sys sizes, NextGC, LastGC,
NumForcedGC, NumCgoCall — are never consulted by the evaluator, the
engine metric map, or the aggregations). uint64 counters are `Nat`,
GCCPUFraction is a float, NumGoroutine a Go int, Timestamp nanoseconds. -/
structure RuntimeMetrics where
  heapAlloc : Nat
  heapSys : Nat
  heapIdle : Nat
  heapInuse : Nat
  heapReleased : Nat
  heapObjects : Nat
  pauseTotalNs : Nat
  numGC : Nat
  gcCPUFraction : Rat
  numGoroutine : Int
  timestamp : Int

def rmZero : RuntimeMetrics :=
  { heapAlloc := 0, heapSys := 0, heapIdle := 0, heapInuse := 0
    heapReleased := 0, heapObjects := 0, pauseTotalNs := 0, numGC := 0
    gcCPUFraction := 0, numGoroutine := 0, timestamp := 0 }

/-- HTTPStats from pkg/descry/metrics (int64 counters and nanosecond
times, float64 rates). -/
structure HTTPStats where
  requestCount : Int
  errorCount : Int
  errorRate : Rat
  requestRate : Rat
  avgResponseTime : Int
  maxResponseTime : Int
  pendingRequests : Int

def httpZero : HTTPStats :=
  { requestCount := 0, errorCount := 0, errorRate := 0, requestRate := 0
    avgResponseTime := 0, maxResponseTime := 0, pendingRequests := 0 }

/-- The state an evaluation reads: the collector's current snapshot and
history ring, the HTTP stats, and the wall clock used by
GetHistoryWindow's cutoff. -/
structure Env where
  current : RuntimeMetrics
  httpStats : HTTPStats
  history : List RuntimeMetrics
  nowNs : Int

/-- RuntimeCollector.GetHistoryWindow: empty history short-circuits,
otherwise keep the samples with Timestamp strictly after now − duration
(in encounter order). -/
def getHistoryWindow (env : Env) (duration : Int) : List RuntimeMetrics :=
  if env.history.length = 0 then []
  else
    let cutoff := env.nowNs - duration
    env.history.filter (fun m => m.timestamp > cutoff)

/-! ## Evaluator metric access and aggregations (pkg/descry/evaluator.go) -/

/-- getHistoricalMetricValue: only the eight collector-backed
(category, metric) pairs produce a value; every other pair — including
heap.objects, gc.cpu_fraction, all http metrics, and all custom
metrics — returns Go nil (`none`). gc.pause converts ns → ms. -/
def getHistoricalMetricValue (category metric : String) (rm : RuntimeMetrics) :
    Option Object :=
  if category = "heap" then
    if metric = "alloc" then some (Object.integer (uint64ToInt64 rm.heapAlloc))
    else if metric = "sys" then some (Object.integer (uint64ToInt64 rm.heapSys))
    else if metric = "idle" then some (Object.integer (uint64ToInt64 rm.heapIdle))
    else if metric = "inuse" then some (Object.integer (uint64ToInt64 rm.heapInuse))
    else if metric = "released" then some (Object.integer (uint64ToInt64 rm.heapReleased))
    else none
  else if category = "goroutines" then
    if metric = "count" then some (Object.integer rm.numGoroutine) else none
  else if category = "gc" then
    if metric = "pause" then some (Object.float ((rm.pauseTotalNs : Rat) / 1000000))
    else if metric = "num" then some (Object.integer (uint64ToInt64 rm.numGC))
    else none
  else none

/-- strings.Split(metricPath, ".") -/
def splitDots (s : String) : List String :=
  (s.toList.splitOn '.').map (fun cs => String.mk cs)

/-- The sum-and-count loop of calculateMetricAverage. -/
def avgLoop (category metric : String) : List RuntimeMetrics → Rat → Nat → Rat × Nat
  | [], sum, count => (sum, count)
  | h :: rest, sum, count =>
    match getHistoricalMetricValue category metric h with
    | some value => avgLoop category metric rest (sum + objectToFloat value) (count + 1)
    | none => avgLoop category metric rest sum count

/-- calculateMetricAverage from evaluator.go. -/
def calculateMetricAverage (env : Env) (metricPath : String) (duration : Int) : Object :=
  match splitDots metricPath with
  | [category, metric] =>
    let history := getHistoryWindow env duration
    if history.length = 0 then Object.float 0
    else
      let sc := avgLoop category metric history 0 0
      if sc.2 = 0 then Object.float 0
      else Object.float (sc.1 / (sc.2 : Rat))
  | _ => newError "metric path must be in format 'category.metric'"

/-- The max-with-first-flag loop of calculateMetricMax (`var max
float64` starts at 0 and is returned even when no sample had a value). -/
def maxLoop (category metric : String) : List RuntimeMetrics → Rat → Bool → Rat
  | [], maxV, _ => maxV
  | h :: rest, maxV, first =>
    match getHistoricalMetricValue category metric h with
    | some value =>
      let val := objectToFloat value
      if first || val > maxV then maxLoop category metric rest val false
      else maxLoop category metric rest maxV first
    | none => maxLoop category metric rest maxV first

/-- calculateMetricMax from evaluator.go. -/
def calculateMetricMax (env : Env) (metricPath : String) (duration : Int) : Object :=
  match splitDots metricPath with
  | [category, metric] =>
    let history := getHistoryWindow env duration
    if history.length = 0 then Object.float 0
    else Object.float (maxLoop category metric history 0 true)
  | _ => newError "metric path must be in format 'category.metric'"

/-- calculateMetricTrend from evaluator.go: (latest − earliest) divided
by the window's time span in minutes; 0 for fewer than two samples, a
missing metric value at either end, or a zero span. -/
def calculateMetricTrend (env : Env) (metricPath : String) (duration : Int) : Object :=
  match splitDots metricPath with
  | [category, metric] =>
    let history := getHistoryWindow env duration
    if history.length < 2 then Object.float 0
    else
      let firstSample := history.getD 0 rmZero
      let lastSample := history.getD (history.length - 1) rmZero
      match getHistoricalMetricValue category metric firstSample,
            getHistoricalMetricValue category metric lastSample with
      | some earliest, some latest =>
        let earliestVal := objectToFloat earliest
        let latestVal := objectToFloat latest
        let timeDiff := lastSample.timestamp - firstSample.timestamp
        let minutesDiff := (timeDiff : Rat) / (60 * 1000000000 : Rat)
        if minutesDiff = 0 then Object.float 0
        else Object.float ((latestVal - earliestVal) / minutesDiff)
      | _, _ => Object.float 0
  | _ => newError "metric path must be in format 'category.metric'"

/-- getMetricValue from evaluator.go (the point-read map over the
current runtime snapshot and HTTP stats; wider than the historical
map: it also serves heap.objects, gc.cpu_fraction and http.*). -/
def getMetricValue (env : Env) (category metric : String) : Object :=
  if category = "heap" then
    if metric = "alloc" then Object.integer (uint64ToInt64 env.current.heapAlloc)
    else if metric = "sys" then Object.integer (uint64ToInt64 env.current.heapSys)
    else if metric = "idle" then Object.integer (uint64ToInt64 env.current.heapIdle)
    else if metric = "inuse" then Object.integer (uint64ToInt64 env.current.heapInuse)
    else if metric = "released" then Object.integer (uint64ToInt64 env.current.heapReleased)
    else if metric = "objects" then Object.integer (uint64ToInt64 env.current.heapObjects)
    else newError ("unknown metric: " ++ category ++ "." ++ metric)
  else if category = "goroutines" then
    if metric = "count" then Object.integer env.current.numGoroutine
    else newError ("unknown metric: " ++ category ++ "." ++ metric)
  else if category = "gc" then
    if metric = "pause" then Object.float ((env.current.pauseTotalNs : Rat) / 1000000)
    else if metric = "num" then Object.integer (uint64ToInt64 env.current.numGC)
    else if metric = "cpu_fraction" then Object.float env.current.gcCPUFraction
    else newError ("unknown metric: " ++ category ++ "." ++ metric)
  else if category = "http" then
    if metric = "request_count" then Object.integer env.httpStats.requestCount
    else if metric = "error_count" then Object.integer env.httpStats.errorCount
    else if metric = "error_rate" then Object.float env.httpStats.errorRate
    else if metric = "request_rate" then Object.float env.httpStats.requestRate
    else if metric = "response_time" then
      Object.float ((env.httpStats.avgResponseTime : Rat) / 1000000)
    else if metric = "max_response_time" then
      Object.float ((env.httpStats.maxResponseTime : Rat) / 1000000)
    else if metric = "pending_requests" then Object.integer env.httpStats.pendingRequests
    else newError ("unknown metric: " ++ category ++ "." ++ metric)
  else newError ("unknown metric: " ++ category ++ "." ++ metric)

/-- extractMetricPath: first aggregation argument must be a String. -/
def extractMetricPath : Object → Option String
  | .str s => some s
  | _ => none

/-- Go float64 → int64 conversion truncates toward zero. -/
def ratTrunc (q : Rat) : Int := if q ≥ 0 then q.floor else q.ceil

/-- extractDuration: Integer seconds → ns, Float seconds → truncated
ns, anything else rejected. -/
def extractDuration : Object → Option Int
  | .integer v => some (v * 1000000000)
  | .float v => some (ratTrunc (v * 1000000000))
  | _ => none

/-- getUnitMultiplier (strings.ToUpper on the unit lexeme). -/
def getUnitMultiplier (unit : String) : Rat :=
  let u := unit.toUpper
  if u = "B" then 1
  else if u = "KB" then 1024
  else if u = "MB" then 1024 * 1024
  else if u = "GB" then 1024 * 1024 * 1024
  else if u = "MS" then 1
  else if u = "S" then 1000
  else if u = "M" then 1000 * 60
  else if u = "H" then 1000 * 60 * 60
  else 0

/-- handleAvg / handleMax / handleTrend share argument extraction. -/
def handleAvg (env : Env) (metricObj durationObj : Object) : Object :=
  match extractMetricPath metricObj with
  | none => newError "first argument to avg() must be a metric path"
  | some path =>
    match extractDuration durationObj with
    | none => newError "second argument to avg() must be a time duration"
    | some dur => calculateMetricAverage env path dur

def handleMax (env : Env) (metricObj durationObj : Object) : Object :=
  match extractMetricPath metricObj with
  | none => newError "first argument to max() must be a metric path"
  | some path =>
    match extractDuration durationObj with
    | none => newError "second argument to max() must be a time duration"
    | some dur => calculateMetricMax env path dur

def handleTrend (env : Env) (metricObj durationObj : Object) : Object :=
  match extractMetricPath metricObj with
  | none => newError "first argument to trend() must be a metric path"
  | some path =>
    match extractDuration durationObj with
    | none => newError "second argument to trend() must be a time duration"
    | some dur => calculateMetricTrend env path dur

/-- callFunction from evaluator.go. handleAlert/handleLog dispatch the
action through the registry — NewEngine registers console, log and
dashboard handlers and all of them return nil errors (actions.go), so
both calls yield NULL. -/
def callFunction (env : Env) (name : String) (args : List Object) : Object :=
  if name = "alert" then
    if args.length ≠ 1 then
      newError ("wrong number of arguments for alert: got=" ++
                toString args.length ++ ", want=1")
    else Object.null
  else if name = "log" then
    if args.length ≠ 1 then
      newError ("wrong number of arguments for log: got=" ++
                toString args.length ++ ", want=1")
    else Object.null
  else if name = "avg" then
    if args.length ≠ 2 then
      newError ("wrong number of arguments for avg: got=" ++
                toString args.length ++ ", want=2")
    else handleAvg env (args.getD 0 Object.null) (args.getD 1 Object.null)
  else if name = "max" then
    if args.length ≠ 2 then
      newError ("wrong number of arguments for max: got=" ++
                toString args.length ++ ", want=2")
    else handleMax env (args.getD 0 Object.null) (args.getD 1 Object.null)
  else if name = "trend" then
    if args.length ≠ 2 then
      newError ("wrong number of arguments for trend: got=" ++
                toString args.length ++ ", want=2")
    else handleTrend env (args.getD 0 Object.null) (args.getD 1 Object.null)
  else newError ("unknown function: " ++ name)

/-! ## The tree-walking evaluator (Eval / EvalWithContext)

The claims evaluate rules through `Engine.EvaluateRules` → `Eval`, i.e.
with a background context that is never cancelled, so the
`ctx.Done()` checks (which can only fire under the supervised
evaluation harness) are omitted. Go-nil results (`var result Object`
after an empty statement list) are `none`. -/

mutual

def evalStmt (env : Env) : Stmt → Option Object
  | .WhenStmt cond body =>
    -- evalWhenStatementWithContext
    let condition := evalExpr env cond
    if isError condition then some condition
    else if isTruthy condition then
      let result := evalStmtList env body
      if isErrorOpt result then result
      else some Object.ruleTriggered
    else some Object.null
  | .BlockStmt stmts => evalStmtList env stmts
  | .ExprStmt e => some (evalExpr env e)

/-- The statement loop of evalProgram / evalBlockStatement: stop at the
first Error, otherwise return the LAST statement's result (nil for an
empty list). -/
def evalStmtList (env : Env) : List Stmt → Option Object
  | [] => none
  | s :: ss =>
    let result := evalStmt env s
    if isErrorOpt result then result
    else if ss.isEmpty then result
    else evalStmtList env ss

def evalExpr (env : Env) : Expr → Object
  | .InfixExpr operator l r =>
    let left := evalExpr env l
    if isError left then left
    else
      let right := evalExpr env r
      if isError right then right
      else evalInfixExpression operator left right
  | .DotExpr l r =>
    -- evalDotExpression: the sides are inspected, not evaluated
    match l, r with
    | .Identifier leftIdent, .Identifier rightIdent =>
      getMetricValue env leftIdent rightIdent
    | _, _ => newError "invalid dot expression: expected identifier.identifier"
  | .CallExpr f args =>
    -- evalCallExpression
    match f with
    | .Identifier name =>
      let argVals := evalExprList env args []
      if argVals.length = 1 ∧ isError (argVals.getD 0 Object.null) then
        argVals.getD 0 Object.null
      else callFunction env name argVals
    | _ => newError "invalid function call"
  | .Identifier value => newError ("identifier not found: " ++ value)
  | .IntegerLit v => Object.integer v
  | .FloatLit v => Object.float v
  | .StringLit v => Object.str v
  | .UnitExpr v u =>
    -- evalUnitExpression
    let value := evalExpr env v
    if isError value then value
    else
      let multiplier := getUnitMultiplier u
      if multiplier = 0 then newError ("unknown unit: " ++ u)
      else
        match value with
        | .integer n => Object.integer (wrap64 (n * ratTrunc multiplier))
        | .float q => Object.float (q * multiplier)
        | _ => newError "invalid value type for unit expression"
  | .PrefixExpr _ _ =>
    -- EvalWithContext has no *parser.PrefixExpression case: default arm
    newError "unknown node type: *parser.PrefixExpression"
  | .NilExpr => newError "unknown node type: <nil>"

/-- evalExpressions: evaluate left to right, and on the first error
DISCARD the accumulated results and return just that error. -/
def evalExprList (env : Env) : List Expr → List Object → List Object
  | [], acc => acc
  | e :: es, acc =>
    let v := evalExpr env e
    if isError v then [v]
    else evalExprList env es (acc ++ [v])

end

/-- Eval on a whole Program (evalProgramWithContext's loop is the same
statement loop). -/
def evalProgram (env : Env) (statements : List Stmt) : Option Object :=
  evalStmtList env statements

/-! ## Alert lifecycle (pkg/descry/dashboard/server.go)

The three transition handlers decode a request, validate the bounds,
then walk `s.alerts` and mutate the FIRST entry whose ID matches —
unconditionally, with no inspection of the current status. Timestamps
are the handler's `time.Now()` calls, passed in as one `now` value per
request (the two consecutive `time.Now()` calls inside
handleResolveAlert differ only below the claims' granularity). Fields
the handlers never read or write (rule, message, severity, metadata)
are omitted. JSON decoding, the HTTP method check and response writing
are transport concerns outside the state machine. -/

inductive AlertStatus where
  | active | acknowledged | resolved | suppressed
deriving DecidableEq, Repr

structure AlertNote where
  message : String
  author : String
  createdAt : Int
deriving DecidableEq, Repr

structure Alert where
  id : String
  status : AlertStatus
  createdAt : Int
  updatedAt : Int
  resolvedAt : Option Int
  acknowledgedBy : Option String
  notes : List AlertNote
deriving DecidableEq, Repr

/-- createAlert's lifecycle-relevant initialization: status active,
no resolution timestamp, no acknowledger, no notes. -/
def mkActiveAlert (id : String) (createdAt : Int) : Alert :=
  { id := id, status := .active, createdAt := createdAt
    updatedAt := createdAt, resolvedAt := none
    acknowledgedBy := none, notes := [] }

structure AlertActionRequest where
  alertID : String
  user : String
  note : String
deriving DecidableEq, Repr

/-- The `for i := range s.alerts { if s.alerts[i].ID == req.AlertID {
mutate; return } }` pattern: first match mutated, the rest untouched;
no match (the 404 path) leaves the list unchanged. -/
def alertsUpdateFirst (alerts : List Alert) (aid : String) (f : Alert → Alert) :
    List Alert :=
  match alerts with
  | [] => []
  | a :: rest =>
    if a.id = aid then f a :: rest
    else a :: alertsUpdateFirst rest aid f

/-- The shared request validation of the three transition handlers. -/
def alertRequestValid (req : AlertActionRequest) : Bool :=
  req.alertID ≠ "" && req.note.length ≤ 1000 && req.user.length ≤ 100

/-- Appending the optional note (`if req.Note != ""`). -/
def withOptionalNote (a : Alert) (req : AlertActionRequest) (now : Int) : Alert :=
  if req.note ≠ "" then
    { a with notes := a.notes ++ [{ message := req.note, author := req.user, createdAt := now }] }
  else a

/-- handleAcknowledgeAlert: unconditional status write; AcknowledgedBy
only when a user was supplied. -/
def handleAcknowledgeAlert (alerts : List Alert) (req : AlertActionRequest)
    (now : Int) : List Alert :=
  if ¬ alertRequestValid req then alerts
  else
    alertsUpdateFirst alerts req.alertID (fun a =>
      withOptionalNote
        { a with status := .acknowledged
                 updatedAt := now
                 acknowledgedBy := if req.user ≠ "" then some req.user else a.acknowledgedBy }
        req now)

/-- handleResolveAlert: unconditional status write and an unconditional
overwrite of ResolvedAt. -/
def handleResolveAlert (alerts : List Alert) (req : AlertActionRequest)
    (now : Int) : List Alert :=
  if ¬ alertRequestValid req then alerts
  else
    alertsUpdateFirst alerts req.alertID (fun a =>
      withOptionalNote
        { a with status := .resolved
                 updatedAt := now
                 resolvedAt := some now }
        req now)

/-- handleSuppressAlert: unconditional status write. -/
def handleSuppressAlert (alerts : List Alert) (req : AlertActionRequest)
    (now : Int) : List Alert :=
  if ¬ alertRequestValid req then alerts
  else
    alertsUpdateFirst alerts req.alertID (fun a =>
      withOptionalNote { a with status := .suppressed, updatedAt := now } req now)

/-- One acknowledge/resolve/suppress request against the alert store. -/
inductive AlertOp where
  | acknowledge (req : AlertActionRequest) (now : Int)
  | resolve (req : AlertActionRequest) (now : Int)
  | suppress (req : AlertActionRequest) (now : Int)

def applyAlertOp (alerts : List Alert) : AlertOp → List Alert
  | .acknowledge req now => handleAcknowledgeAlert alerts req now
  | .resolve req now => handleResolveAlert alerts req now
  | .suppress req now => handleSuppressAlert alerts req now

def applyAlertOps (alerts : List Alert) : List AlertOp → List Alert
  | [] => alerts
  | op :: rest => applyAlertOps (applyAlertOp alerts op) rest

/-! ## Concrete inputs used by the theorems below -/

/-- The spec's division-by-zero scenario rule text. -/
def divzeroSource : String := "when 1/0 > 0 \x7b alert(\"x\") \x7d"

/-- A rule that parses cleanly (the shape used across the repo's own
tests). -/
def validRuleSource : String := "when heap.alloc > 0 \x7b log(\"x\") \x7d"

/-- An evaluation environment with zeroed metrics and no history. -/
def envZero : Env :=
  { current := rmZero, httpStats := httpZero, history := [], nowNs := 0 }

/-- An environment with a two-sample history (both inside any positive
window ending at `nowNs = 10`). -/
def envTwoSamples : Env :=
  { current := rmZero, httpStats := httpZero
    history := [{ rmZero with heapAlloc := 5, timestamp := 1 },
                { rmZero with heapAlloc := 9, timestamp := 2 }]
    nowNs := 10 }

/-- The engine state after one successful AddRule of the valid source
under name "a". -/
def engineAfterAdd1 : EngineState :=
  (addRule newEngineState "a" validRuleSource).toOption.getD newEngineState

/-- The engine state after a second AddRule with the SAME name "a". -/
def engineAfterDupAdds : EngineState :=
  (addRule engineAfterAdd1 "a" validRuleSource).toOption.getD engineAfterAdd1

/-- A fresh engine whose MaxRules is 2. -/
def engineMax2 : EngineState :=
  { newEngineState with limits := { defaultResourceLimits with maxRules := 2 } }

/-- An engine at its custom-metric limit of 2 with names "a" and "b". -/
def engineCM2 : EngineState :=
  { newEngineState with
    limits := { defaultResourceLimits with maxCustomMetrics := 2 }
    customMetrics := [("a", 1), ("b", 2)] }

/-- A fresh engine whose MaxRuleComplexity is 5 (below the valid rule's
7 nodes). -/
def engineCx5 : EngineState :=
  { newEngineState with limits := { defaultResourceLimits with maxRuleComplexity := 5 } }

/-- A rule body of one `log("hit")` call. -/
def logStmt : Stmt := .ExprStmt (.CallExpr (.Identifier "log") [.StringLit "hit"])

/-- The C3 counterexample program: one expression statement holding a
metric access, i.e. the parse of `heap.alloc`. -/
def progDotOnly : List Stmt :=
  [.ExprStmt (.DotExpr (.Identifier "heap") (.Identifier "alloc"))]

/-- An already-resolved alert (reached from active via one resolve). -/
def resolvedAlert : Alert :=
  { mkActiveAlert "a" 0 with status := .resolved, resolvedAt := some 0 }

/-- The first sample of the aggregation window (the code's
`history[0]`). -/
def windowFirst (env : Env) (d : Int) : RuntimeMetrics :=
  (getHistoryWindow env d).getD 0 rmZero

/-- The last sample of the aggregation window (the code's
`history[len(history)-1]`). -/
def windowLast (env : Env) (d : Int) : RuntimeMetrics :=
  (getHistoryWindow env d).getD ((getHistoryWindow env d).length - 1) rmZero

/-- The float value an aggregation reads off one sample (0 when the
metric is not collector-backed: `objectToFloat` of the Go-nil value). -/
def metricVal (category metric : String) (rm : RuntimeMetrics) : Rat :=
  objectToFloat ((getHistoricalMetricValue category metric rm).getD Object.null)

/-! # Theorems -/

/-! ## C4 — float infix operator set -/

/-- C4 counterexample: the claim says `&&` and `||` on Float operands do
not produce an unknown-operator error, but evalFloatInfixExpression has
no `&&`/`||` cases, so both yield exactly that error (also when only one
operand is a Float). -/
theorem C4_float_logical_counterexample :
    evalInfixExpression "&&" (Object.float 1) (Object.float 1) =
      Object.error "unknown operator: &&" ∧
    evalInfixExpression "||" (Object.float 0) (Object.integer 1) =
      Object.error "unknown operator: ||" := ⟨rfl, rfl⟩

/-- C4 (amended): when either operand is a Float, the evaluator widens
to Float and supports the arithmetic operators (`/ 0` guarded) and all
six comparisons, but NOT `&&`/`||`, which fall to the unknown-operator
error — the float operator set is strictly smaller than the integer
one. -/
theorem C4_float_operator_set (l r : Rat) (n : Int) :
    evalInfixExpression "+" (Object.float l) (Object.float r) = Object.float (l + r) ∧
    evalInfixExpression "-" (Object.float l) (Object.float r) = Object.float (l - r) ∧
    evalInfixExpression "*" (Object.float l) (Object.float r) = Object.float (l * r) ∧
    evalInfixExpression "/" (Object.float l) (Object.float r) =
      (if r = 0 then Object.error "division by zero" else Object.float (l / r)) ∧
    evalInfixExpression "<" (Object.float l) (Object.float r) =
      Object.boolean (decide (l < r)) ∧
    evalInfixExpression ">" (Object.float l) (Object.float r) =
      Object.boolean (decide (l > r)) ∧
    evalInfixExpression "<=" (Object.float l) (Object.float r) =
      Object.boolean (decide (l ≤ r)) ∧
    evalInfixExpression ">=" (Object.float l) (Object.float r) =
      Object.boolean (decide (l ≥ r)) ∧
    evalInfixExpression "==" (Object.float l) (Object.float r) =
      Object.boolean (decide (l = r)) ∧
    evalInfixExpression "!=" (Object.float l) (Object.float r) =
      Object.boolean (decide (l ≠ r)) ∧
    evalInfixExpression "&&" (Object.float l) (Object.float r) =
      Object.error "unknown operator: &&" ∧
    evalInfixExpression "||" (Object.float l) (Object.float r) =
      Object.error "unknown operator: ||" ∧
    evalInfixExpression "+" (Object.integer n) (Object.float r) =
      Object.float ((n : Rat) + r) ∧
    evalInfixExpression "&&" (Object.integer n) (Object.float r) =
      Object.error "unknown operator: &&" :=
  ⟨rfl, rfl, rfl, rfl, rfl, rfl, rfl, rfl, rfl, rfl, rfl, rfl, rfl, rfl⟩

/-! ## C9 — non-numeric truthiness of when-conditions -/

/-- C9: isTruthy treats every value except NULL and the false Boolean as
truthy, so a when-condition evaluating to Integer 0, Float 0.0 or the
empty String runs the body and yields RuleTriggered; a condition value
is untruthy only for Null and Boolean false. -/
theorem C9_truthiness_non_numeric :
    (∀ v : Object, isTruthy v = false ↔ (v = Object.null ∨ v = Object.boolean false)) ∧
    (∀ (env : Env) (cond : Expr) (body : List Stmt),
      isError (evalExpr env cond) = false →
      isTruthy (evalExpr env cond) = true →
      isErrorOpt (evalStmtList env body) = false →
      evalStmt env (.WhenStmt cond body) = some Object.ruleTriggered) ∧
    (∀ (env : Env) (cond : Expr) (body : List Stmt),
      isError (evalExpr env cond) = false →
      isTruthy (evalExpr env cond) = false →
      evalStmt env (.WhenStmt cond body) = some Object.null) ∧
    (∀ (env : Env) (body : List Stmt),
      isErrorOpt (evalStmtList env body) = false →
      evalStmt env (.WhenStmt (.IntegerLit 0) body) = some Object.ruleTriggered ∧
      evalStmt env (.WhenStmt (.FloatLit 0) body) = some Object.ruleTriggered ∧
      evalStmt env (.WhenStmt (.StringLit "") body) = some Object.ruleTriggered) := by
  have htrig : ∀ (env : Env) (cond : Expr) (body : List Stmt),
      isError (evalExpr env cond) = false →
      isTruthy (evalExpr env cond) = true →
      isErrorOpt (evalStmtList env body) = false →
      evalStmt env (.WhenStmt cond body) = some Object.ruleTriggered := by
    intro env cond body h1 h2 h3
    simp [evalStmt, h1, h2, h3]
  refine ⟨?_, htrig, ?_, ?_⟩
  · intro v
    cases v <;> simp [isTruthy]
  · intro env cond body h1 h2
    simp [evalStmt, h1, h2]
  · intro env body h3
    exact ⟨htrig env _ body rfl rfl h3, htrig env _ body rfl rfl h3,
           htrig env _ body rfl rfl h3⟩

/-- C9 witness: with zeroed metrics, a rule whose condition is the
integer literal 0 triggers and runs its `log` body, while a condition
evaluating to Boolean false yields Null. -/
theorem C9_truthiness_witness :
    evalStmt envZero (.WhenStmt (.IntegerLit 0) [logStmt]) = some Object.ruleTriggered ∧
    evalStmt envZero
      (.WhenStmt (.InfixExpr "<" (.IntegerLit 1) (.IntegerLit 0)) [logStmt]) =
      some Object.null :=
  ⟨(C9_truthiness_non_numeric.2.2.2 envZero [logStmt] rfl).1,
   C9_truthiness_non_numeric.2.2.1 envZero
     (.InfixExpr "<" (.IntegerLit 1) (.IntegerLit 0)) [logStmt] rfl rfl⟩

/-! ## C10 — temporal aggregations silently return 0 off the
collector-backed metric set -/

/-- C10: for a well-formed two-part metric path whose (category, metric)
pair is outside the eight collector-backed names, avg, max and trend all
return Float 0 and never an Error, whatever the history holds. -/
theorem C10_aggregations_silent_zero (env : Env) (path category metric : String)
    (d : Int)
    (hsplit : splitDots path = [category, metric])
    (hout : ∀ rm : RuntimeMetrics, getHistoricalMetricValue category metric rm = none) :
    calculateMetricAverage env path d = Object.float 0 ∧
    calculateMetricMax env path d = Object.float 0 ∧
    calculateMetricTrend env path d = Object.float 0 := by
  have havg : ∀ (hist : List RuntimeMetrics) (s : Rat) (c : Nat),
      avgLoop category metric hist s c = (s, c) := by
    intro hist
    induction hist with
    | nil => intro s c; rfl
    | cons h t ih => intro s c; simp [avgLoop, hout h]; exact ih s c
  have hmax : ∀ (hist : List RuntimeMetrics) (mv : Rat) (fs : Bool),
      maxLoop category metric hist mv fs = mv := by
    intro hist
    induction hist with
    | nil => intro mv fs; rfl
    | cons h t ih => intro mv fs; simp [maxLoop, hout h]; exact ih mv fs
  refine ⟨?_, ?_, ?_⟩
  · unfold calculateMetricAverage
    rw [hsplit]
    by_cases hh : (getHistoryWindow env d).length = 0
    · simp [hh]
    · simp [hh, havg]
  · unfold calculateMetricMax
    rw [hsplit]
    by_cases hh : (getHistoryWindow env d).length = 0
    · simp [hh]
    · simp [hh, hmax]
  · unfold calculateMetricTrend
    rw [hsplit]
    by_cases hh : (getHistoryWindow env d).length < 2
    · simp [hh]
    · simp [hh, hout]

/-- C10 witness: `http.request_count` (dashboard-visible and point-
readable, but not collector-backed) aggregates to 0 over a non-empty
history. -/
theorem C10_aggregations_witness :
    calculateMetricAverage envTwoSamples "http.request_count" 60000000000 =
      Object.float 0 ∧
    calculateMetricMax envTwoSamples "http.request_count" 60000000000 =
      Object.float 0 ∧
    calculateMetricTrend envTwoSamples "http.request_count" 60000000000 =
      Object.float 0 :=
  C10_aggregations_silent_zero envTwoSamples "http.request_count" "http"
    "request_count" 60000000000 rfl (fun _ => rfl)

/-! ## C2 — the division-by-zero rule never reaches evaluation -/

/-- C2 counterexample: AddRule does NOT admit `when 1/0 > 0 {
alert("x") }`. parseWhenStatement demands an IDENT right after `when`
(the condition starts with INT `1`), and `/` has no lexer case, so it
tokenizes as ILLEGAL with no prefix parse function; the four collected
errors make AddRule fail, against the claim that the rule passes
admission and fails only at evaluation. -/
theorem C2_divzero_counterexample :
    (addRule newEngineState "divzero" divzeroSource).isOk = false ∧
    (parseProgram divzeroSource).2 =
      ["expected next token to be IDENT, got INT instead",
       "no prefix parse function for ILLEGAL found",
       "no prefix parse function for \x7b found",
       "no prefix parse function for \x7d found"] := ⟨rfl, rfl⟩

/-- C2 (amended): for the rule source `when 1/0 > 0 { alert("x") }`,
any AddRule with room below MaxRules returns a parse error — the rule is
rejected at admission, so no rule is loaded, nothing is ever evaluated,
and no alert can be created; the engine's state is untouched (the error
path performs no mutation). -/
theorem C2_divzero_rejected_at_parse (e : EngineState) (name : String)
    (hroom : (e.rules.length : Int) < e.limits.maxRules) :
    (parseProgram divzeroSource).2 =
      ["expected next token to be IDENT, got INT instead",
       "no prefix parse function for ILLEGAL found",
       "no prefix parse function for \x7b found",
       "no prefix parse function for \x7d found"] ∧
    addRule e name divzeroSource =
      Except.error ("parse errors: [" ++
        String.intercalate " " (parseProgram divzeroSource).2 ++ "]") := by
  refine ⟨rfl, ?_⟩
  unfold addRule
  rw [if_neg (not_le.mpr hroom)]
  rfl

/-- C2 witness: the amended fact at the fresh engine. -/
theorem C2_divzero_witness :
    addRule newEngineState "r" divzeroSource =
      Except.error ("parse errors: [" ++
        String.intercalate " " (parseProgram divzeroSource).2 ++ "]") :=
  (C2_divzero_rejected_at_parse newEngineState "r" (by decide)).2

/-! ## C5 — rule names are not unique -/

/-- C5 counterexample: two AddRule calls under the same name "a" both
succeed and the engine then holds two rules named "a", refuting the
uniqueness claim. -/
theorem C5_duplicate_names_counterexample :
    (addRule newEngineState "a" validRuleSource).isOk = true ∧
    (addRule engineAfterAdd1 "a" validRuleSource).isOk = true ∧
    engineAfterDupAdds.rules.map Rule.name = ["a", "a"] := ⟨rfl, rfl, rfl⟩

/-- C5 (amended): AddRule performs no name-uniqueness check — every
successful call appends its name to the loaded list unconditionally, so
a second admissible AddRule with an already-loaded name produces two
rules with that name. -/
theorem C5_addRule_appends_any_name (e e' : EngineState) (name source : String)
    (h : addRule e name source = .ok e') :
    e'.rules.map Rule.name = e.rules.map Rule.name ++ [name] := by
  unfold addRule at h
  split at h
  · exact absurd h (by simp)
  · split at h
    · exact absurd h (by simp)
    · split at h
      · exact absurd h (by simp)
      · cases h
        simp

/-- C5 witness: applied where the name "a" is already loaded — the
second add appends another "a". -/
theorem C5_addRule_appends_witness :
    engineAfterDupAdds.rules.map Rule.name =
      engineAfterAdd1.rules.map Rule.name ++ ["a"] :=
  C5_addRule_appends_any_name engineAfterAdd1 engineAfterDupAdds "a"
    validRuleSource rfl

/-! ## C6 — admission limits -/

/-- An admissible source is accepted and appended (helper). -/
theorem addRule_ok_of_admissible (e : EngineState) (name source : String)
    (hroom : (e.rules.length : Int) < e.limits.maxRules)
    (hparse : (parseProgram source).2 = [])
    (hcx : (countNodesProgram (parseProgram source).1 : Int) ≤ e.limits.maxRuleComplexity) :
    addRule e name source =
      .ok { e with rules := e.rules ++
              [{ name := name, source := source, ast := (parseProgram source).1 }] } := by
  unfold addRule
  rw [if_neg (not_le.mpr hroom), if_neg (by simp [hparse]), if_neg (not_lt.mpr hcx)]

/-- Iterating AddRule with an admissible source grows the list by one
per call while room remains (helper). -/
theorem addRuleIter_ok (name source : String)
    (hparse : (parseProgram source).2 = []) :
    ∀ (n : Nat) (e : EngineState),
      (countNodesProgram (parseProgram source).1 : Int) ≤ e.limits.maxRuleComplexity →
      (e.rules.length : Int) + n ≤ e.limits.maxRules →
      ∃ e', addRuleIter name source n e = .ok e' ∧
            e'.rules.length = e.rules.length + n ∧ e'.limits = e.limits := by
  intro n
  induction n with
  | zero => intro e hcx hroom; exact ⟨e, rfl, by omega, rfl⟩
  | succ k ih =>
    intro e hcx hroom
    have hr : (e.rules.length : Int) < e.limits.maxRules := by omega
    have hok := addRule_ok_of_admissible e name source hr hparse hcx
    obtain ⟨e', hiter, hlen, hlim⟩ := ih
      { e with rules := e.rules ++
          [{ name := name, source := source, ast := (parseProgram source).1 }] }
      hcx (by simp; omega)
    refine ⟨e', ?_, ?_, ?_⟩
    · rw [addRuleIter, hok]
      exact hiter
    · simp at hlen; omega
    · exact hlim

/-- C6: AddRule enforces the three admission checks atomically — a call
on a full engine fails; a parse-failing source fails; a program over
MaxRuleComplexity fails; a success implies all three checks passed and
appends exactly the new rule; and with MaxRules = N on a fresh engine,
exactly N admissible calls succeed and the (N+1)-st fails. An error
return carries no new state, so the loaded list is unchanged on every
failure. -/
theorem C6_admission_limits (e : EngineState) (name source : String) :
    ((e.rules.length : Int) ≥ e.limits.maxRules →
      (addRule e name source).isOk = false) ∧
    ((parseProgram source).2 ≠ [] → (addRule e name source).isOk = false) ∧
    ((parseProgram source).2 = [] →
      (countNodesProgram (parseProgram source).1 : Int) > e.limits.maxRuleComplexity →
      (addRule e name source).isOk = false) ∧
    (∀ e', addRule e name source = .ok e' →
      (e.rules.length : Int) < e.limits.maxRules ∧
      (parseProgram source).2 = [] ∧
      (countNodesProgram (parseProgram source).1 : Int) ≤ e.limits.maxRuleComplexity ∧
      e'.rules = e.rules ++
        [{ name := name, source := source, ast := (parseProgram source).1 }]) ∧
    (∀ N : Nat, e.rules = [] → e.limits.maxRules = (N : Int) →
      (parseProgram source).2 = [] →
      (countNodesProgram (parseProgram source).1 : Int) ≤ e.limits.maxRuleComplexity →
      ∃ eN, addRuleIter name source N e = .ok eN ∧ eN.rules.length = N ∧
            (addRule eN name source).isOk = false) := by
  refine ⟨?_, ?_, ?_, ?_, ?_⟩
  · intro hfull
    unfold addRule
    rw [if_pos hfull]
    rfl
  · intro hp
    unfold addRule
    by_cases hfull : (e.rules.length : Int) ≥ e.limits.maxRules
    · rw [if_pos hfull]; rfl
    · rw [if_neg hfull, if_pos hp]; rfl
  · intro hp hcx
    unfold addRule
    by_cases hfull : (e.rules.length : Int) ≥ e.limits.maxRules
    · rw [if_pos hfull]; rfl
    · rw [if_neg hfull, if_neg (by simp [hp]), if_pos hcx]; rfl
  · intro e' h
    unfold addRule at h
    split at h
    · exact absurd h (by simp)
    · split at h
      · exact absurd h (by simp)
      · split at h
        · exact absurd h (by simp)
        · cases h
          refine ⟨by omega, by simpa using ‹¬ (parseProgram source).2 ≠ []›, by omega, by simp⟩
  · intro N hempty hmax hp hcx
    obtain ⟨eN, hiter, hlen, hlim⟩ :=
      addRuleIter_ok name source hp N e hcx (by rw [hempty, hmax]; simp)
    refine ⟨eN, hiter, by rw [hlen, hempty]; simp, ?_⟩
    unfold addRule
    rw [if_pos (by rw [hlen, hlim, hempty, hmax]; simp)]
    rfl

/-- C6 witness: with MaxRules = 2, two adds of a valid rule succeed and
the third fails; a parse-failing source is rejected; a 7-node rule is
rejected under MaxRuleComplexity = 5 (the spec's complexity scenario). -/
theorem C6_admission_witness :
    (∃ e2, addRuleIter "r" validRuleSource 2 engineMax2 = .ok e2 ∧
           e2.rules.length = 2 ∧ (addRule e2 "r" validRuleSource).isOk = false) ∧
    (addRule newEngineState "x" divzeroSource).isOk = false ∧
    (addRule engineCx5 "x" validRuleSource).isOk = false :=
  ⟨(C6_admission_limits engineMax2 "r" validRuleSource).2.2.2.2 2 rfl rfl rfl (by decide),
   (C6_admission_limits newEngineState "x" divzeroSource).2.1 (by decide),
   (C6_admission_limits engineCx5 "x" validRuleSource).2.2.1 rfl (by decide)⟩

/-! ## C7 — custom-metric table bound -/

theorem mapSet_length_of_contains (name : String) (v : Rat) :
    ∀ m : List (String × Rat), mapContains m name = true →
      (mapSet m name v).length = m.length := by
  intro m
  induction m with
  | nil => intro h; simp [mapContains] at h
  | cons kv rest ih =>
    intro h
    by_cases hk : kv.1 = name
    · simp [mapSet, hk]
    · have hrest : mapContains rest name = true := by
        simp [mapContains] at h ⊢
        rcases h with h | h
        · exact absurd h hk
        · exact h
      simp [mapSet, hk, ih hrest]

theorem mapSet_length_of_new (name : String) (v : Rat) :
    ∀ m : List (String × Rat), mapContains m name = false →
      (mapSet m name v).length = m.length + 1 := by
  intro m
  induction m with
  | nil => intro _; rfl
  | cons kv rest ih =>
    intro h
    simp [mapContains] at h
    have hrest : mapContains rest name = false := by
      simp [mapContains]
      exact h.2
    simp [mapSet, h.1, ih hrest]

theorem mapSet_keys_of_contains (name : String) (v : Rat) :
    ∀ m : List (String × Rat), mapContains m name = true →
      (mapSet m name v).map Prod.fst = m.map Prod.fst := by
  intro m
  induction m with
  | nil => intro h; simp [mapContains] at h
  | cons kv rest ih =>
    intro h
    by_cases hk : kv.1 = name
    · simp [mapSet, hk]
    · have hrest : mapContains rest name = true := by
        simp [mapContains] at h ⊢
        rcases h with h | h
        · exact absurd h hk
        · exact h
      simp [mapSet, hk, ih hrest]

theorem mapSet_keys_of_new (name : String) (v : Rat) :
    ∀ m : List (String × Rat), mapContains m name = false →
      (mapSet m name v).map Prod.fst = m.map Prod.fst ++ [name] := by
  intro m
  induction m with
  | nil => intro _; rfl
  | cons kv rest ih =>
    intro h
    simp [mapContains] at h
    have hrest : mapContains rest name = false := by
      simp [mapContains]
      exact h.2
    simp [mapSet, h.1, ih hrest]

theorem mapContains_eq_mem (name : String) (m : List (String × Rat)) :
    mapContains m name = true ↔ name ∈ m.map Prod.fst := by
  simp [mapContains, List.any_eq_true]

/-- One accepted update keeps the table size within the limit and
preserves limits and key distinctness (helper). -/
theorem updateCustomMetric_ok_invariant (e : EngineState) (name : String) (v : Rat)
    (e' : EngineState) (h : updateCustomMetric e name v = .ok e')
    (hsize : (e.customMetrics.length : Int) ≤ e.limits.maxCustomMetrics) :
    (e'.customMetrics.length : Int) ≤ e'.limits.maxCustomMetrics ∧
    e'.limits = e.limits ∧
    ((e.customMetrics.map Prod.fst).Nodup →
      (e'.customMetrics.map Prod.fst).Nodup) := by
  unfold updateCustomMetric at h
  split at h
  · exact absurd h (by simp)
  · cases h
    rename_i hguard
    by_cases hct : mapContains e.customMetrics name = true
    · refine ⟨?_, rfl, ?_⟩
      · simpa [mapSet_length_of_contains name v _ hct] using hsize
      · intro hnd
        rw [mapSet_keys_of_contains name v _ hct]
        exact hnd
    · have hfalse : mapContains e.customMetrics name = false := by
        simpa using hct
      have hroom : (e.customMetrics.length : Int) < e.limits.maxCustomMetrics := by
        rcases not_and_or.mp hguard with h1 | h2
        · omega
        · exact absurd (by simpa using hfalse) h2
      refine ⟨?_, rfl, ?_⟩
      · rw [mapSet_length_of_new name v _ hfalse]
        push_cast
        omega
      · intro hnd
        rw [mapSet_keys_of_new name v _ hfalse]
        refine List.Nodup.append hnd (List.nodup_singleton name) ?_
        intro x hx hx1
        simp at hx1
        rw [hx1] at hx
        exact absurd ((mapContains_eq_mem name _).mpr hx) (by simp [hfalse])

/-- Any caller-driven update sequence keeps the size bound, the limits
and the key distinctness (helper). -/
theorem applyCustomUpdates_invariant :
    ∀ (ops : List (String × Rat)) (e : EngineState),
      (e.customMetrics.length : Int) ≤ e.limits.maxCustomMetrics →
      ((applyCustomUpdates e ops).customMetrics.length : Int) ≤
        (applyCustomUpdates e ops).limits.maxCustomMetrics ∧
      (applyCustomUpdates e ops).limits = e.limits ∧
      ((e.customMetrics.map Prod.fst).Nodup →
        ((applyCustomUpdates e ops).customMetrics.map Prod.fst).Nodup) := by
  intro ops
  induction ops with
  | nil => intro e he; exact ⟨he, rfl, fun h => h⟩
  | cons nv rest ih =>
    intro e he
    obtain ⟨n1, v1⟩ := nv
    cases hoc : updateCustomMetric e n1 v1 with
    | error m =>
      have := ih e he
      simpa [applyCustomUpdates, hoc] using this
    | ok e1 =>
      obtain ⟨hs1, hl1, hn1⟩ := updateCustomMetric_ok_invariant e n1 v1 e1 hoc he
      have hrec := ih e1 hs1
      refine ⟨?_, ?_, ?_⟩
      · simpa [applyCustomUpdates, hoc] using hrec.1
      · have h21 := hrec.2.1
        rw [hl1] at h21
        simpa [applyCustomUpdates, hoc] using h21
      · intro hnd
        have h22 := hrec.2.2 (hn1 hnd)
        simpa [applyCustomUpdates, hoc] using h22

/-- C7: the custom-metric table never grows past MaxCustomMetrics — a
new name is rejected at the limit, an existing name is always accepted
(size unchanged), a single accepted update preserves the bound, and any
update sequence from the fresh engine keeps at most MaxCustomMetrics
distinct names. -/
theorem C7_custom_metric_bound (e : EngineState) (name : String) (v : Rat)
    (ops : List (String × Rat)) :
    ((e.customMetrics.length : Int) ≥ e.limits.maxCustomMetrics →
      mapContains e.customMetrics name = false →
      (updateCustomMetric e name v).isOk = false) ∧
    (mapContains e.customMetrics name = true →
      ∃ e', updateCustomMetric e name v = .ok e' ∧
            e'.customMetrics.length = e.customMetrics.length) ∧
    ((e.customMetrics.length : Int) ≤ e.limits.maxCustomMetrics →
      ∀ e', updateCustomMetric e name v = .ok e' →
        (e'.customMetrics.length : Int) ≤ e'.limits.maxCustomMetrics) ∧
    ((e.customMetrics.length : Int) ≤ e.limits.maxCustomMetrics →
      ((applyCustomUpdates e ops).customMetrics.length : Int) ≤
        e.limits.maxCustomMetrics) ∧
    ((applyCustomUpdates newEngineState ops).customMetrics.map Prod.fst).Nodup := by
  refine ⟨?_, ?_, ?_, ?_, ?_⟩
  · intro hfull hnew
    unfold updateCustomMetric
    rw [if_pos ⟨hfull, by simp [hnew]⟩]
    rfl
  · intro hct
    refine ⟨{ e with customMetrics := mapSet e.customMetrics name v }, ?_, ?_⟩
    · unfold updateCustomMetric
      rw [if_neg (by simp [hct])]
    · simpa using mapSet_length_of_contains name v _ hct
  · intro hsize e' h
    exact (updateCustomMetric_ok_invariant e name v e' h hsize).1
  · intro hsize
    obtain ⟨h1, h2, _⟩ := applyCustomUpdates_invariant ops e hsize
    rw [h2] at h1
    exact h1
  · exact (applyCustomUpdates_invariant ops newEngineState (by simp [newEngineState,
      defaultResourceLimits])).2.2 (by simp [newEngineState])

/-- C7 witness: at the limit MaxCustomMetrics = 2 with names "a","b",
a write to the new name "c" is rejected while a write to "a" is
accepted without growing the table. -/
theorem C7_custom_metric_witness :
    (updateCustomMetric engineCM2 "c" 3).isOk = false ∧
    (∃ e', updateCustomMetric engineCM2 "a" 5 = .ok e' ∧
           e'.customMetrics.length = engineCM2.customMetrics.length) :=
  ⟨(C7_custom_metric_bound engineCM2 "c" 3 []).1 (by decide) rfl,
   (C7_custom_metric_bound engineCM2 "a" 5 []).2.1 rfl⟩

/-! ## C1 — alert lifecycle state machine -/

theorem withOptionalNote_status (a : Alert) (req : AlertActionRequest) (now : Int) :
    (withOptionalNote a req now).status = a.status := by
  unfold withOptionalNote; split <;> rfl

theorem withOptionalNote_resolvedAt (a : Alert) (req : AlertActionRequest) (now : Int) :
    (withOptionalNote a req now).resolvedAt = a.resolvedAt := by
  unfold withOptionalNote; split <;> rfl

/-- C1 counterexample: on an alert in state active, resolve followed by
acknowledge ends in `acknowledged` (so `resolved` is not terminal and
the state mutates), and a second resolve moves `resolvedAt` from
`some 1` to `some 2` (so it is not set exactly once). -/
theorem C1_alert_lifecycle_counterexample :
    ((applyAlertOps [mkActiveAlert "a" 0]
        [.resolve ⟨"a", "u", ""⟩ 1, .acknowledge ⟨"a", "v", ""⟩ 2]).getD 0
        (mkActiveAlert "" 0)).status = .acknowledged ∧
    ((applyAlertOps [mkActiveAlert "a" 0] [.resolve ⟨"a", "u", ""⟩ 1]).getD 0
        (mkActiveAlert "" 0)).resolvedAt = some 1 ∧
    ((applyAlertOps [mkActiveAlert "a" 0]
        [.resolve ⟨"a", "u", ""⟩ 1, .resolve ⟨"a", "u", ""⟩ 2]).getD 0
        (mkActiveAlert "" 0)).resolvedAt = some 2 := ⟨rfl, rfl, rfl⟩

/-- C1 (amended): the handlers enforce no state machine — for a valid
request matching the first alert, acknowledge/resolve/suppress set the
status to their target unconditionally, whatever the prior status
(including `resolved`), resolve overwrites `resolvedAt` on every call,
and the other alerts are untouched. -/
theorem C1_alert_transitions_unconditional (a : Alert) (rest : List Alert)
    (req : AlertActionRequest) (now : Int)
    (hid : req.alertID = a.id)
    (hvalid : alertRequestValid req = true) :
    ((handleAcknowledgeAlert (a :: rest) req now).getD 0 a).status = .acknowledged ∧
    ((handleResolveAlert (a :: rest) req now).getD 0 a).status = .resolved ∧
    ((handleResolveAlert (a :: rest) req now).getD 0 a).resolvedAt = some now ∧
    ((handleSuppressAlert (a :: rest) req now).getD 0 a).status = .suppressed ∧
    (handleAcknowledgeAlert (a :: rest) req now).drop 1 = rest ∧
    (handleResolveAlert (a :: rest) req now).drop 1 = rest ∧
    (handleSuppressAlert (a :: rest) req now).drop 1 = rest := by
  refine ⟨?_, ?_, ?_, ?_, ?_, ?_, ?_⟩ <;>
    simp [handleAcknowledgeAlert, handleResolveAlert, handleSuppressAlert,
          hvalid, alertsUpdateFirst, hid, withOptionalNote_status,
          withOptionalNote_resolvedAt]

/-- C1 witness: applied to an ALREADY-RESOLVED alert — acknowledge
moves it back to `acknowledged`, and another resolve re-sets
`resolvedAt` to the new time. -/
theorem C1_alert_transitions_witness :
    ((handleAcknowledgeAlert [resolvedAlert] ⟨"a", "u", ""⟩ 5).getD 0
        resolvedAlert).status = .acknowledged ∧
    ((handleResolveAlert [resolvedAlert] ⟨"a", "u", ""⟩ 5).getD 0
        resolvedAlert).resolvedAt = some 5 :=
  ⟨(C1_alert_transitions_unconditional resolvedAlert [] ⟨"a", "u", ""⟩ 5 rfl rfl).1,
   (C1_alert_transitions_unconditional resolvedAlert [] ⟨"a", "u", ""⟩ 5 rfl rfl).2.2.1⟩

/-! ## C3 — countNodes versus the inclusive subtree size -/

/-- C3 counterexample: the program holding the single expression
statement `heap.alloc` counts 2 nodes (the statement hits the
failed-NodeCounter fallback), while its inclusive subtree size is 5
(program, statement, dot, two identifiers). -/
theorem C3_countNodes_counterexample :
    countNodesProgram progDotOnly = 2 ∧
    specSubtreeSizeProgram progDotOnly = 5 ∧
    countNodesProgram progDotOnly ≠ specSubtreeSizeProgram progDotOnly :=
  ⟨rfl, rfl, by decide⟩

mutual

theorem countExprChild_le_spec : ∀ e : Expr, exprNilFree e = true →
    countExprChild e ≤ specSubtreeSizeExpr e
  | .Identifier _, _ => le_refl _
  | .IntegerLit _, _ => le_refl _
  | .FloatLit _, _ => le_refl _
  | .StringLit _, _ => le_refl _
  | .NilExpr, h => by simp [exprNilFree] at h
  | .PrefixExpr op r, _ => by
    simp only [countExprChild, specSubtreeSizeExpr]
    omega
  | .DotExpr l r, _ => by
    simp only [countExprChild, specSubtreeSizeExpr]
    omega
  | .UnitExpr v u, h => by
    have hv := countExprChild_le_spec v (by simpa [exprNilFree] using h)
    simp only [countExprChild, specSubtreeSizeExpr]
    omega
  | .InfixExpr op l r, h => by
    have h1 := (Bool.and_eq_true _ _).mp (by simpa [exprNilFree] using h)
    have hl := countExprChild_le_spec l h1.1
    have hr := countExprChild_le_spec r h1.2
    simp only [countExprChild, specSubtreeSizeExpr]
    omega
  | .CallExpr f args, h => by
    have h1 := (Bool.and_eq_true _ _).mp (by simpa [exprNilFree] using h)
    have hf := countExprChild_le_spec f h1.1
    have ha := countExprArgs_le_spec args h1.2
    simp only [countExprChild, specSubtreeSizeExpr]
    omega

theorem countExprArgs_le_spec : ∀ es : List Expr, argsNilFree es = true →
    countExprArgs es ≤ specSubtreeSizeArgs es
  | [], _ => le_refl _
  | e :: es, h => by
    have h1 := (Bool.and_eq_true _ _).mp (by simpa [argsNilFree] using h)
    have he := countExprChild_le_spec e h1.1
    have hes := countExprArgs_le_spec es h1.2
    cases e with
    | NilExpr => simp [exprNilFree] at h1
    | Identifier v =>
      simp only [countExprArgs, specSubtreeSizeArgs]; omega
    | IntegerLit v =>
      simp only [countExprArgs, specSubtreeSizeArgs]; omega
    | FloatLit v =>
      simp only [countExprArgs, specSubtreeSizeArgs]; omega
    | StringLit v =>
      simp only [countExprArgs, specSubtreeSizeArgs]; omega
    | UnitExpr v u =>
      simp only [countExprArgs, specSubtreeSizeArgs]; omega
    | InfixExpr op l r =>
      simp only [countExprArgs, specSubtreeSizeArgs]; omega
    | PrefixExpr op r =>
      simp only [countExprArgs, specSubtreeSizeArgs]; omega
    | CallExpr f args =>
      simp only [countExprArgs, specSubtreeSizeArgs]; omega
    | DotExpr l r =>
      simp only [countExprArgs, specSubtreeSizeArgs]; omega

end

mutual

theorem countNodesStmt_le_spec : ∀ s : Stmt, stmtNilFree s = true →
    countNodesStmt s ≤ specSubtreeSizeStmt s
  | .WhenStmt cond body, h => by
    have h1 := (Bool.and_eq_true _ _).mp (by simpa [stmtNilFree] using h)
    have hc := countExprChild_le_spec cond h1.1
    have hb := countStmtList_le_spec body h1.2
    simp only [countNodesStmt, specSubtreeSizeStmt]
    omega
  | .BlockStmt stmts, h => by
    have hb := countStmtList_le_spec stmts (by simpa [stmtNilFree] using h)
    simp only [countNodesStmt, specSubtreeSizeStmt]
    omega
  | .ExprStmt e, _ => by
    simp only [countNodesStmt, specSubtreeSizeStmt]
    omega

theorem countStmtList_le_spec : ∀ ss : List Stmt, stmtsNilFree ss = true →
    countStmtList ss ≤ specSubtreeSizeStmts ss
  | [], _ => le_refl _
  | s :: ss, h => by
    have h1 := (Bool.and_eq_true _ _).mp (by simpa [stmtsNilFree] using h)
    have hs := countNodesStmt_le_spec s h1.1
    have hss := countStmtList_le_spec ss h1.2
    cases s with
    | WhenStmt cond body =>
      simp only [countStmtList, specSubtreeSizeStmts]; omega
    | BlockStmt stmts =>
      simp only [countStmtList, specSubtreeSizeStmts]; omega
    | ExprStmt e =>
      simp only [countStmtList, specSubtreeSizeStmts, specSubtreeSizeStmt]; omega

end

/-- C3 (amended): countNodes is the inclusive subtree size only on the
NodeCounter-implementing types — ExpressionStatement counts 1 whatever
its expression holds, and DotExpression/PrefixExpression count 1 as
children because the type assertion fails on them — so the code's count
never exceeds (and in general undercounts) the spec's inclusive subtree
size on nil-free ASTs. -/
theorem C3_countNodes_fallback :
    (∀ (l r : Expr), countExprChild (.DotExpr l r) = 1) ∧
    (∀ (op : String) (r : Expr), countExprChild (.PrefixExpr op r) = 1) ∧
    (∀ (e : Expr) (ss : List Stmt),
      countStmtList (.ExprStmt e :: ss) = 1 + countStmtList ss) ∧
    (∀ ss : List Stmt, stmtsNilFree ss = true →
      countNodesProgram ss ≤ specSubtreeSizeProgram ss) := by
  refine ⟨fun l r => rfl, fun op r => rfl, fun e ss => rfl, ?_⟩
  intro ss h
  unfold countNodesProgram specSubtreeSizeProgram
  have := countStmtList_le_spec ss h
  omega

/-- C3 witness: the fallback bound at the counterexample program. -/
theorem C3_countNodes_witness :
    countNodesProgram progDotOnly ≤ specSubtreeSizeProgram progDotOnly :=
  C3_countNodes_fallback.2.2.2 progDotOnly rfl

/-! ## C8 — trend formula and sign -/

/-- Chain step from a head to the last element (helper). -/
theorem chain_rel_getD_last {α : Type} (dflt : α) (r : α → α → Prop)
    (htrans : ∀ x y z, r x y → r y z → r x z) :
    ∀ (xs : List α) (a : α), List.Chain r a xs → xs ≠ [] →
      r a (xs.getD (xs.length - 1) dflt)
  | [], _, _, hne => absurd rfl hne
  | b :: t, a, h, _ => by
    have h1 : r a b := (List.chain_cons.mp h).1
    have h2 : List.Chain r b t := (List.chain_cons.mp h).2
    cases t with
    | nil => exact h1
    | cons c t2 =>
      have hrec := chain_rel_getD_last dflt r htrans (c :: t2) b h2 (by simp)
      exact htrans _ _ _ h1 hrec

/-- From the first to the last element of a chain-ordered window
(helper). -/
theorem chain'_getD_first_last {α : Type} (dflt : α) (r : α → α → Prop)
    (htrans : ∀ x y z, r x y → r y z → r x z) :
    ∀ xs : List α, 2 ≤ xs.length → List.Chain' r xs →
      r (xs.getD 0 dflt) (xs.getD (xs.length - 1) dflt)
  | [], hlen, _ => by simp at hlen
  | [_], hlen, _ => by simp at hlen
  | a :: b :: t2, _, h =>
    chain_rel_getD_last dflt r htrans (b :: t2) a h (by simp)

/-- A valid index selects a member (helper). -/
theorem getD_mem_of_lt {α : Type} :
    ∀ (xs : List α) (n : Nat) (dflt : α), n < xs.length → xs.getD n dflt ∈ xs
  | [], _, _, h => absurd h (by simp)
  | a :: t, 0, _, _ => List.mem_cons_self a t
  | a :: t, n + 1, dflt, h =>
    List.mem_cons_of_mem a (getD_mem_of_lt t n dflt (by simpa using h))

/-- C8: calculateMetricTrend returns (last − first) divided by the
window's span in minutes; 0 for fewer than two samples or a zero span;
0 when all sampled values are equal; positive for strictly increasing
and negative for strictly decreasing values over a forward time span. -/
theorem C8_trend_semantics (env : Env) (path category metric : String) (d : Int)
    (hsplit : splitDots path = [category, metric]) :
    ((getHistoryWindow env d).length < 2 →
      calculateMetricTrend env path d = Object.float 0) ∧
    (2 ≤ (getHistoryWindow env d).length →
      (windowLast env d).timestamp = (windowFirst env d).timestamp →
      calculateMetricTrend env path d = Object.float 0) ∧
    (∀ ev lv, 2 ≤ (getHistoryWindow env d).length →
      getHistoricalMetricValue category metric (windowFirst env d) = some ev →
      getHistoricalMetricValue category metric (windowLast env d) = some lv →
      (windowLast env d).timestamp ≠ (windowFirst env d).timestamp →
      calculateMetricTrend env path d =
        Object.float ((objectToFloat lv - objectToFloat ev) /
          ((((windowLast env d).timestamp - (windowFirst env d).timestamp : Int) : Rat) /
            (60 * 1000000000)))) ∧
    ((∀ rm1 ∈ getHistoryWindow env d, ∀ rm2 ∈ getHistoryWindow env d,
        metricVal category metric rm1 = metricVal category metric rm2) →
      calculateMetricTrend env path d = Object.float 0) ∧
    (2 ≤ (getHistoryWindow env d).length →
      (∀ rm : RuntimeMetrics, ∃ v, getHistoricalMetricValue category metric rm = some v) →
      List.Chain' (fun s t : RuntimeMetrics => s.timestamp ≤ t.timestamp)
        (getHistoryWindow env d) →
      (windowLast env d).timestamp ≠ (windowFirst env d).timestamp →
      List.Chain' (fun s t : RuntimeMetrics =>
        metricVal category metric s < metricVal category metric t)
        (getHistoryWindow env d) →
      ∃ c, calculateMetricTrend env path d = Object.float c ∧ 0 < c) ∧
    (2 ≤ (getHistoryWindow env d).length →
      (∀ rm : RuntimeMetrics, ∃ v, getHistoricalMetricValue category metric rm = some v) →
      List.Chain' (fun s t : RuntimeMetrics => s.timestamp ≤ t.timestamp)
        (getHistoryWindow env d) →
      (windowLast env d).timestamp ≠ (windowFirst env d).timestamp →
      List.Chain' (fun s t : RuntimeMetrics =>
        metricVal category metric t < metricVal category metric s)
        (getHistoryWindow env d) →
      ∃ c, calculateMetricTrend env path d = Object.float c ∧ c < 0) := by
  have hbase : ∀ _ : 2 ≤ (getHistoryWindow env d).length,
      calculateMetricTrend env path d =
        match getHistoricalMetricValue category metric (windowFirst env d),
              getHistoricalMetricValue category metric (windowLast env d) with
        | some earliest, some latest =>
          if ((((windowLast env d).timestamp - (windowFirst env d).timestamp : Int) : Rat) /
               (60 * 1000000000)) = 0 then Object.float 0
          else Object.float ((objectToFloat latest - objectToFloat earliest) /
            ((((windowLast env d).timestamp - (windowFirst env d).timestamp : Int) : Rat) /
              (60 * 1000000000)))
        | _, _ => Object.float 0 := by
    intro hlen
    unfold calculateMetricTrend
    simp only [hsplit]
    rw [if_neg (by omega)]
    rfl
  have hpart1 : (getHistoryWindow env d).length < 2 →
      calculateMetricTrend env path d = Object.float 0 := by
    intro hlen
    unfold calculateMetricTrend
    simp only [hsplit]
    rw [if_pos hlen]
  have hpart3 : ∀ ev lv, 2 ≤ (getHistoryWindow env d).length →
      getHistoricalMetricValue category metric (windowFirst env d) = some ev →
      getHistoricalMetricValue category metric (windowLast env d) = some lv →
      (windowLast env d).timestamp ≠ (windowFirst env d).timestamp →
      calculateMetricTrend env path d =
        Object.float ((objectToFloat lv - objectToFloat ev) /
          ((((windowLast env d).timestamp - (windowFirst env d).timestamp : Int) : Rat) /
            (60 * 1000000000))) := by
    intro ev lv hlen hev hlv hne
    have h0 : ¬ ((((windowLast env d).timestamp - (windowFirst env d).timestamp : Int) : Rat) /
        (60 * 1000000000) = 0) := by
      rw [div_eq_zero_iff]
      push_neg
      refine ⟨?_, by norm_num⟩
      rw [Int.cast_ne_zero]
      exact sub_ne_zero.mpr hne
    rw [hbase hlen, hev, hlv]
    exact if_neg h0
  refine ⟨hpart1, ?_, hpart3, ?_, ?_, ?_⟩
  · intro hlen hts
    rw [hbase hlen]
    cases getHistoricalMetricValue category metric (windowFirst env d) with
    | none => rfl
    | some ev =>
      cases getHistoricalMetricValue category metric (windowLast env d) with
      | none => rfl
      | some lv =>
        exact if_pos (by rw [hts]; simp)
  · intro heq
    by_cases hlen : (getHistoryWindow env d).length < 2
    · exact hpart1 hlen
    · have hlen2 : 2 ≤ (getHistoryWindow env d).length := by omega
      have hmem1 : windowFirst env d ∈ getHistoryWindow env d :=
        getD_mem_of_lt _ 0 rmZero (by omega)
      have hmem2 : windowLast env d ∈ getHistoryWindow env d :=
        getD_mem_of_lt _ _ rmZero (by omega)
      have hvv := heq _ hmem1 _ hmem2
      rw [hbase hlen2]
      cases hev : getHistoricalMetricValue category metric (windowFirst env d) with
      | none => rfl
      | some ev =>
        cases hlv : getHistoricalMetricValue category metric (windowLast env d) with
        | none => rfl
        | some lv =>
          have hnum : objectToFloat lv - objectToFloat ev = 0 := by
            have := hvv
            rw [metricVal, metricVal, hev, hlv] at this
            simp at this
            rw [this]
            ring
          by_cases hz : ((((windowLast env d).timestamp -
              (windowFirst env d).timestamp : Int) : Rat) / (60 * 1000000000)) = 0
          · exact if_pos hz
          · refine (if_neg hz).trans ?_
            rw [hnum]
            simp
  · intro hlen hvals hts hne hinc
    obtain ⟨ev, hev⟩ := hvals (windowFirst env d)
    obtain ⟨lv, hlv⟩ := hvals (windowLast env d)
    have hΔle : (windowFirst env d).timestamp ≤ (windowLast env d).timestamp :=
      chain'_getD_first_last rmZero
        (fun s t : RuntimeMetrics => s.timestamp ≤ t.timestamp)
        (fun x y z hxy hyz => le_trans hxy hyz) (getHistoryWindow env d) hlen hts
    have hΔ : (0 : Int) < (windowLast env d).timestamp - (windowFirst env d).timestamp := by
      omega
    have hv : metricVal category metric (windowFirst env d) <
        metricVal category metric (windowLast env d) :=
      chain'_getD_first_last rmZero
        (fun s t : RuntimeMetrics =>
          metricVal category metric s < metricVal category metric t)
        (fun x y z hxy hyz => lt_trans hxy hyz) (getHistoryWindow env d) hlen hinc
    have hnum : objectToFloat ev < objectToFloat lv := by
      rw [metricVal, metricVal, hev, hlv] at hv
      simpa using hv
    refine ⟨_, hpart3 ev lv hlen hev hlv hne, ?_⟩
    apply div_pos (sub_pos.mpr hnum)
    apply div_pos
    · exact_mod_cast hΔ
    · norm_num
  · intro hlen hvals hts hne hdec
    obtain ⟨ev, hev⟩ := hvals (windowFirst env d)
    obtain ⟨lv, hlv⟩ := hvals (windowLast env d)
    have hΔle : (windowFirst env d).timestamp ≤ (windowLast env d).timestamp :=
      chain'_getD_first_last rmZero
        (fun s t : RuntimeMetrics => s.timestamp ≤ t.timestamp)
        (fun x y z hxy hyz => le_trans hxy hyz) (getHistoryWindow env d) hlen hts
    have hΔ : (0 : Int) < (windowLast env d).timestamp - (windowFirst env d).timestamp := by
      omega
    have hv : metricVal category metric (windowLast env d) <
        metricVal category metric (windowFirst env d) :=
      chain'_getD_first_last rmZero
        (fun s t : RuntimeMetrics =>
          metricVal category metric t < metricVal category metric s)
        (fun x y z hxy hyz => lt_trans hyz hxy) (getHistoryWindow env d) hlen hdec
    have hnum : objectToFloat lv < objectToFloat ev := by
      rw [metricVal, metricVal, hev, hlv] at hv
      simpa using hv
    refine ⟨_, hpart3 ev lv hlen hev hlv hne, ?_⟩
    apply div_neg_of_neg_of_pos (sub_neg.mpr hnum)
    apply div_pos
    · exact_mod_cast hΔ
    · norm_num

/-- C8 witness: over a window with heap.alloc rising 5 → 9 across a
positive span, the trend is positive; over an empty history it is 0. -/
theorem C8_trend_witness :
    (∃ c, calculateMetricTrend envTwoSamples "heap.alloc" 60000000000 =
        Object.float c ∧ 0 < c) ∧
    calculateMetricTrend envZero "heap.alloc" 60000000000 = Object.float 0 :=
  ⟨(C8_trend_semantics envTwoSamples "heap.alloc" "heap" "alloc" 60000000000
      rfl).2.2.2.2.1 (by decide) (fun rm => ⟨_, rfl⟩)
      (List.chain'_pair.mpr (by decide)) (by decide)
      (List.chain'_pair.mpr (by decide)),
   (C8_trend_semantics envZero "heap.alloc" "heap" "alloc" 60000000000
      rfl).1 (by decide)⟩

end Descry
